import Mathlib

/-!
Shallow embedding of the Wormhole query SDK binary decoder
(`src/structs/query_request.rs` and `src/structs/query_response.rs`).

The Rust code reads from a `std::io::Cursor<&[u8]>`.  We model a buffer as a
`List Nat` (each wire byte is `< 256`; no theorem below depends on the bound)
and a cursor as that buffer together with a forward read position.  Reads are
modelled after the `std::io::Cursor` + `byteorder` behaviour the source uses:

* `read_exact n` succeeds returning the next `n` bytes and advancing the
  position when at least `n` bytes remain; otherwise it fails with an
  end-of-file error and the position jumps to the end of the buffer
  (`std::io::Cursor::read_exact` places the cursor at EOF on failure).
* `read_u8` / `read_u16` / `read_u32` / `read_u64` (`byteorder`, big endian)
  are `read_exact` of 1/2/4/8 bytes combined into a natural number.

Rust `String` fields are modelled as their UTF-8 byte contents, guarded by an
executable UTF-8 validity check mirroring `String::from_utf8`.

The cursor also carries a ghost trace `allocs` recording, in order, the size
argument of every `vec![0u8; n]` allocation the source performs for a
length-prefixed field before it reads into that buffer.  The trace has no
influence on parsing; it only makes the source's allocate-then-read order
observable (the `Vec::with_capacity` calls for count-prefixed lists take a
1-byte count `≤ 255` and are not recorded).

Fallible Rust functions returning `std::io::Result` become functions into
`Except Err _`; the cursor state is threaded explicitly, also on the error
path, exactly as a `&mut Cursor` persists past a failed call.
-/

set_option maxRecDepth 100000

namespace WormholeQuery

/-- A byte buffer: the wire bytes of a message. -/
abbrev Bytes := List Nat

/-- Big-endian combination of a byte list into a natural number, as done by
`byteorder::BigEndian` reads. -/
def beNat (l : Bytes) : Nat := l.foldl (fun acc b => acc * 256 + b) 0

/-- Whether a byte is a UTF-8 continuation byte (`0x80 ..= 0xBF`). -/
def isCont (b : Nat) : Bool := 128 ≤ b && b ≤ 191

/-- Executable UTF-8 validity check on a byte list, mirroring the byte-level
acceptance of Rust's `String::from_utf8` (RFC 3629 table: no overlongs, no
surrogates, maximum scalar value `0x10FFFF`). -/
def isValidUtf8 : Bytes → Bool
  | [] => true
  | b :: rest =>
    if b ≤ 127 then isValidUtf8 rest
    else if 194 ≤ b && b ≤ 223 then
      match rest with
      | c1 :: rest1 => isCont c1 && isValidUtf8 rest1
      | [] => false
    else if b = 224 then
      match rest with
      | c1 :: c2 :: rest2 => (160 ≤ c1 && c1 ≤ 191) && isCont c2 && isValidUtf8 rest2
      | _ => false
    else if 225 ≤ b && b ≤ 236 then
      match rest with
      | c1 :: c2 :: rest2 => isCont c1 && isCont c2 && isValidUtf8 rest2
      | _ => false
    else if b = 237 then
      match rest with
      | c1 :: c2 :: rest2 => (128 ≤ c1 && c1 ≤ 159) && isCont c2 && isValidUtf8 rest2
      | _ => false
    else if 238 ≤ b && b ≤ 239 then
      match rest with
      | c1 :: c2 :: rest2 => isCont c1 && isCont c2 && isValidUtf8 rest2
      | _ => false
    else if b = 240 then
      match rest with
      | c1 :: c2 :: c3 :: rest3 =>
        (144 ≤ c1 && c1 ≤ 191) && isCont c2 && isCont c3 && isValidUtf8 rest3
      | _ => false
    else if 241 ≤ b && b ≤ 243 then
      match rest with
      | c1 :: c2 :: c3 :: rest3 => isCont c1 && isCont c2 && isCont c3 && isValidUtf8 rest3
      | _ => false
    else if b = 244 then
      match rest with
      | c1 :: c2 :: c3 :: rest3 =>
        (128 ≤ c1 && c1 ≤ 143) && isCont c2 && isCont c3 && isValidUtf8 rest3
      | _ => false
    else false

/-- The read cursor: the underlying buffer, the current position, and the
ghost trace of byte-buffer allocation sizes (see the file header). -/
structure Cursor where
  data : Bytes
  pos : Nat
  allocs : List Nat
deriving DecidableEq

/-- Error kinds produced by the decoder: `eof` is `std::io`'s unexpected
end-of-file from a short read, `invalidData msg` is
`std::io::Error::new(ErrorKind::InvalidData, msg)`. -/
inductive Err where
  | eof
  | invalidData (msg : String)
deriving DecidableEq

/-- The decoder monad: a state-and-error function on cursors.  The cursor is
returned also on the error path, as the `&mut Cursor` in the source outlives
a failed call. -/
def M (α : Type) : Type := Cursor → Except Err α × Cursor

def M.pure {α : Type} (a : α) : M α := fun c => (Except.ok a, c)

def M.bind {α β : Type} (m : M α) (f : α → M β) : M β := fun c =>
  match m c with
  | (Except.ok a, c') => f a c'
  | (Except.error e, c') => (Except.error e, c')

instance : Monad M where
  pure := M.pure
  bind := M.bind

/-- Failure with `std::io::Error::new(ErrorKind::InvalidData, msg)`: the
cursor is left unchanged. -/
def invalid {α : Type} (msg : String) : M α := fun c => (Except.error (Err.invalidData msg), c)

/-- Model of `Cursor::read_exact` into an `n`-byte buffer: on success the
`n` bytes at the position are returned and the position advances by `n`; on a
short read the position is placed at the end of the buffer and the call fails
with the end-of-file error. -/
def read_exact (n : Nat) : M Bytes := fun c =>
  if n ≤ c.data.length - c.pos then
    (Except.ok ((c.data.drop c.pos).take n), ⟨c.data, c.pos + n, c.allocs⟩)
  else
    (Except.error Err.eof, ⟨c.data, c.data.length, c.allocs⟩)

/-- A big-endian fixed-width unsigned integer read of `n` bytes
(`byteorder::ReadBytesExt`). -/
def readUInt (n : Nat) : M Nat := do
  let l ← read_exact n
  pure (beNat l)

def read_u8 : M Nat := readUInt 1

def read_u16 : M Nat := readUInt 2

def read_u32 : M Nat := readUInt 4

def read_u64 : M Nat := readUInt 8

/-- Ghost record of a `vec![0u8; n]` allocation performed by the source right
before it reads `n` bytes into that vector.  Parsing is unaffected. -/
def alloc_zeroed (n : Nat) : M Unit := fun c =>
  (Except.ok (), ⟨c.data, c.pos, c.allocs ++ [n]⟩)

/-- Model of `Cursor::position()`. -/
def get_position : M Nat := fun c => (Except.ok c.pos, c)

/-- Model of `cursor.get_ref().len()`: the total buffer length. -/
def get_len : M Nat := fun c => (Except.ok c.data.length, c)

/-- The length-prefixed UTF-8 string read the source repeats inline for every
`String` field: read a 4-byte big-endian length, allocate a zeroed buffer of
that length, `read_exact` into it, and validate UTF-8
(`String::from_utf8(..).map_err(.. msg ..)`). -/
def read_string (msg : String) : M Bytes := do
  let len ← read_u32
  alloc_zeroed len
  let buf ← read_exact len
  if isValidUtf8 buf then pure buf else invalid msg

/-- Runs a parser `n` times collecting the results in order, as the source's
`for _ in 0..n { v.push(parse?) }` loops do. -/
def replicateM {α : Type} (n : Nat) (m : M α) : M (List α) :=
  match n with
  | 0 => pure []
  | Nat.succ k => do
    let a ← m
    let rest ← replicateM k m
    pure (a :: rest)

/-- Replaces the bytes of `d` at positions `[p, p + w.length)` by `w`
(used to state that the discarded wire length fields do not influence
decoding). -/
def splice (d : Bytes) (p : Nat) (w : Bytes) : Bytes :=
  d.take p ++ w ++ d.drop (p + w.length)

/-! ## Request-side data model and parsers (`query_request.rs`) -/

structure EthCallData where
  to_addr : Bytes
  data : Bytes
deriving DecidableEq

structure EthCallQueryRequest where
  block_tag : Bytes
  call_data : List EthCallData
deriving DecidableEq

structure EthCallByTimestampQueryRequest where
  target_timestamp : Nat
  target_block_hint : Bytes
  following_block_hint : Bytes
  call_data : List EthCallData
deriving DecidableEq

structure EthCallWithFinalityQueryRequest where
  block_tag : Bytes
  finality : Bytes
  call_data : List EthCallData
deriving DecidableEq

structure SolanaAccountQueryRequest where
  commitment : Bytes
  min_context_slot : Nat
  data_slice_offset : Nat
  data_slice_length : Nat
  accounts : List Bytes
deriving DecidableEq

inductive ChainSpecificQuery where
  | EthCallQueryRequest (q : EthCallQueryRequest)
  | EthCallByTimestampQueryRequest (q : EthCallByTimestampQueryRequest)
  | EthCallWithFinalityQueryRequest (q : EthCallWithFinalityQueryRequest)
  | SolanaAccountQueryRequest (q : SolanaAccountQueryRequest)
deriving DecidableEq

structure PerChainQueryRequest where
  chain_id : Nat
  query : ChainSpecificQuery
deriving DecidableEq

structure QueryRequest where
  version : Nat
  nonce : Nat
  requests : List PerChainQueryRequest
deriving DecidableEq

def QueryRequest.REQUEST_VERSION : Nat := 1

/-- The call-data entry read: the 20-byte destination address (the field the
source names `to`, a Lean keyword, modelled here as `to_addr`), then a 4-byte
length-prefixed `data` blob.  The source repeats this loop body verbatim in
the three EVM request variants. -/
def readEthCallData : M EthCallData := do
  let addr ← read_exact 20
  let data_len ← read_u32
  alloc_zeroed data_len
  let data ← read_exact data_len
  pure ⟨addr, data⟩

def EthCallQueryRequest.deserialize_from_reader : M EthCallQueryRequest := do
  let block_tag ← read_string "InvalidBlockTag"
  let call_data_len ← read_u8
  let call_data ← replicateM call_data_len readEthCallData
  pure ⟨block_tag, call_data⟩

def EthCallQueryRequest.deserialize (data : Bytes) : Except Err EthCallQueryRequest :=
  (EthCallQueryRequest.deserialize_from_reader ⟨data, 0, []⟩).1

def EthCallByTimestampQueryRequest.deserialize_from_reader :
    M EthCallByTimestampQueryRequest := do
  let target_timestamp ← read_u64
  let target_block_hint ← read_string "InvalidBlockTag"
  let following_block_hint ← read_string "InvalidBlockTag"
  let call_data_len ← read_u8
  let call_data ← replicateM call_data_len readEthCallData
  pure ⟨target_timestamp, target_block_hint, following_block_hint, call_data⟩

def EthCallByTimestampQueryRequest.deserialize (data : Bytes) :
    Except Err EthCallByTimestampQueryRequest :=
  (EthCallByTimestampQueryRequest.deserialize_from_reader ⟨data, 0, []⟩).1

def EthCallWithFinalityQueryRequest.deserialize_from_reader :
    M EthCallWithFinalityQueryRequest := do
  let block_tag ← read_string "InvalidBlockTag"
  let finality ← read_string "InvalidFinality"
  let call_data_len ← read_u8
  let call_data ← replicateM call_data_len readEthCallData
  pure ⟨block_tag, finality, call_data⟩

def EthCallWithFinalityQueryRequest.deserialize (data : Bytes) :
    Except Err EthCallWithFinalityQueryRequest :=
  (EthCallWithFinalityQueryRequest.deserialize_from_reader ⟨data, 0, []⟩).1

def SolanaAccountQueryRequest.deserialize_from_reader : M SolanaAccountQueryRequest := do
  let commitment ← read_string "InvalidBlockTag"
  let min_context_slot ← read_u64
  let data_slice_offset ← read_u64
  let data_slice_length ← read_u64
  let accounts_len ← read_u8
  let accounts ← replicateM accounts_len (read_exact 32)
  pure ⟨commitment, min_context_slot, data_slice_offset, data_slice_length, accounts⟩

def SolanaAccountQueryRequest.deserialize (data : Bytes) :
    Except Err SolanaAccountQueryRequest :=
  (SolanaAccountQueryRequest.deserialize_from_reader ⟨data, 0, []⟩).1

/-- The tag dispatch of `PerChainQueryRequest::deserialize_from_reader` (the
chain of `if query_type == ..` branches following the three header reads; named
separately here, with the header reads in `deserialize_from_reader` below). -/
def PerChainQueryRequest.dispatch (chain_id query_type : Nat) : M PerChainQueryRequest :=
  if query_type = 1 then do
    let q ← EthCallQueryRequest.deserialize_from_reader
    pure ⟨chain_id, ChainSpecificQuery.EthCallQueryRequest q⟩
  else if query_type = 2 then do
    let q ← EthCallByTimestampQueryRequest.deserialize_from_reader
    pure ⟨chain_id, ChainSpecificQuery.EthCallByTimestampQueryRequest q⟩
  else if query_type = 3 then do
    let q ← EthCallWithFinalityQueryRequest.deserialize_from_reader
    pure ⟨chain_id, ChainSpecificQuery.EthCallWithFinalityQueryRequest q⟩
  else if query_type = 4 then do
    let q ← SolanaAccountQueryRequest.deserialize_from_reader
    pure ⟨chain_id, ChainSpecificQuery.SolanaAccountQueryRequest q⟩
  else
    invalid "UnsupportedQueryType"

def PerChainQueryRequest.deserialize_from_reader : M PerChainQueryRequest := do
  let chain_id ← read_u16
  let query_type ← read_u8
  let _ ← read_u32
  PerChainQueryRequest.dispatch chain_id query_type

def PerChainQueryRequest.deserialize (data : Bytes) : Except Err PerChainQueryRequest :=
  (PerChainQueryRequest.deserialize_from_reader ⟨data, 0, []⟩).1

def QueryRequest.deserialize_from_reader : M QueryRequest := do
  let version ← read_u8
  if version ≠ QueryRequest.REQUEST_VERSION then invalid "VersionMismatch" else do
    let nonce ← read_u32
    let num_per_chain_queries ← read_u8
    if num_per_chain_queries = 0 then invalid "ZeroQueries" else do
      let requests ← replicateM num_per_chain_queries
        PerChainQueryRequest.deserialize_from_reader
      pure ⟨version, nonce, requests⟩

def QueryRequest.deserialize (data : Bytes) : Except Err QueryRequest :=
  (QueryRequest.deserialize_from_reader ⟨data, 0, []⟩).1

/-! ## Response-side data model and parsers (`query_response.rs`) -/

structure EthCallQueryResponse where
  block_number : Nat
  block_hash : Bytes
  block_time : Nat
  results : List Bytes
deriving DecidableEq

structure EthCallByTimestampQueryResponse where
  target_block_number : Nat
  target_block_hash : Bytes
  target_block_time : Nat
  following_block_number : Nat
  following_block_hash : Bytes
  following_block_time : Nat
  results : List Bytes
deriving DecidableEq

structure EthCallWithFinalityQueryResponse where
  block_number : Nat
  block_hash : Bytes
  block_time : Nat
  results : List Bytes
deriving DecidableEq

structure SolanaAccountResult where
  lamports : Nat
  rent_epoch : Nat
  executable : Bool
  owner : Bytes
  data : Bytes
deriving DecidableEq

structure SolanaAccountQueryResponse where
  slot_number : Nat
  block_time : Nat
  block_hash : Bytes
  results : List SolanaAccountResult
deriving DecidableEq

inductive ChainSpecificResponse where
  | EthCallQueryResponse (r : EthCallQueryResponse)
  | EthCallByTimestampQueryResponse (r : EthCallByTimestampQueryResponse)
  | EthCallWithFinalityQueryResponse (r : EthCallWithFinalityQueryResponse)
  | SolanaAccountQueryResponse (r : SolanaAccountQueryResponse)
deriving DecidableEq

structure PerChainQueryResponse where
  chain_id : Nat
  response : ChainSpecificResponse
deriving DecidableEq

structure QueryResponse where
  version : Nat
  request_chain_id : Nat
  request_id : Bytes
  request : QueryRequest
  responses : List PerChainQueryResponse
deriving DecidableEq

def QueryResponse.RESPONSE_VERSION : Nat := 1

/-- The length-prefixed opaque result blob read repeated in the loops of the
EVM response parsers (4-byte length, `vec![0u8; len]`, `read_exact`). -/
def readResultBlob : M Bytes := do
  let result_len ← read_u32
  alloc_zeroed result_len
  let result ← read_exact result_len
  pure result

def EthCallQueryResponse.deserialize_from_reader : M EthCallQueryResponse := do
  let block_number ← read_u64
  let block_hash ← read_exact 32
  let block_time ← read_u64
  let results_len ← read_u8
  let results ← replicateM results_len readResultBlob
  pure ⟨block_number, block_hash, block_time, results⟩

def EthCallQueryResponse.deserialize (data : Bytes) : Except Err EthCallQueryResponse :=
  (EthCallQueryResponse.deserialize_from_reader ⟨data, 0, []⟩).1

def EthCallByTimestampQueryResponse.deserialize_from_reader :
    M EthCallByTimestampQueryResponse := do
  let target_block_number ← read_u64
  let target_block_hash ← read_exact 32
  let target_block_time ← read_u64
  let following_block_number ← read_u64
  let following_block_hash ← read_exact 32
  let following_block_time ← read_u64
  let results_len ← read_u8
  let results ← replicateM results_len readResultBlob
  pure ⟨target_block_number, target_block_hash, target_block_time,
    following_block_number, following_block_hash, following_block_time, results⟩

def EthCallByTimestampQueryResponse.deserialize (data : Bytes) :
    Except Err EthCallByTimestampQueryResponse :=
  (EthCallByTimestampQueryResponse.deserialize_from_reader ⟨data, 0, []⟩).1

/-- The source destructures the result of `EthCallQueryResponse`'s reader and
repacks the four fields into an `EthCallWithFinalityQueryResponse`. -/
def EthCallWithFinalityQueryResponse.deserialize_from_reader :
    M EthCallWithFinalityQueryResponse := do
  let r ← EthCallQueryResponse.deserialize_from_reader
  pure ⟨r.block_number, r.block_hash, r.block_time, r.results⟩

def EthCallWithFinalityQueryResponse.deserialize (data : Bytes) :
    Except Err EthCallWithFinalityQueryResponse :=
  (EthCallWithFinalityQueryResponse.deserialize_from_reader ⟨data, 0, []⟩).1

/-- The Solana account entry read inside the results loop. -/
def readSolanaAccountResult : M SolanaAccountResult := do
  let lamports ← read_u64
  let rent_epoch ← read_u64
  let executable_u8 ← read_u8
  let owner ← read_exact 32
  let data_len ← read_u32
  alloc_zeroed data_len
  let data ← read_exact data_len
  pure ⟨lamports, rent_epoch, executable_u8 ≠ 0, owner, data⟩

def SolanaAccountQueryResponse.deserialize_from_reader : M SolanaAccountQueryResponse := do
  let slot_number ← read_u64
  let block_time ← read_u64
  let block_hash ← read_exact 32
  let results_len ← read_u8
  let results ← replicateM results_len readSolanaAccountResult
  pure ⟨slot_number, block_time, block_hash, results⟩

def SolanaAccountQueryResponse.deserialize (data : Bytes) :
    Except Err SolanaAccountQueryResponse :=
  (SolanaAccountQueryResponse.deserialize_from_reader ⟨data, 0, []⟩).1

/-- The tag dispatch of `PerChainQueryResponse::deserialize_from_reader`,
factored as for the request side. -/
def PerChainQueryResponse.dispatch (chain_id query_type : Nat) : M PerChainQueryResponse :=
  if query_type = 1 then do
    let r ← EthCallQueryResponse.deserialize_from_reader
    pure ⟨chain_id, ChainSpecificResponse.EthCallQueryResponse r⟩
  else if query_type = 2 then do
    let r ← EthCallByTimestampQueryResponse.deserialize_from_reader
    pure ⟨chain_id, ChainSpecificResponse.EthCallByTimestampQueryResponse r⟩
  else if query_type = 3 then do
    let r ← EthCallWithFinalityQueryResponse.deserialize_from_reader
    pure ⟨chain_id, ChainSpecificResponse.EthCallWithFinalityQueryResponse r⟩
  else if query_type = 4 then do
    let r ← SolanaAccountQueryResponse.deserialize_from_reader
    pure ⟨chain_id, ChainSpecificResponse.SolanaAccountQueryResponse r⟩
  else
    invalid "UnsupportedResponseType"

def PerChainQueryResponse.deserialize_from_reader : M PerChainQueryResponse := do
  let chain_id ← read_u16
  let query_type ← read_u8
  let _ ← read_u32
  PerChainQueryResponse.dispatch chain_id query_type

def PerChainQueryResponse.deserialize (data : Bytes) : Except Err PerChainQueryResponse :=
  (PerChainQueryResponse.deserialize_from_reader ⟨data, 0, []⟩).1

/-- The reads of `QueryResponse::deserialize_from_reader` that follow the
discarded 4-byte request-length field: the embedded request, the per-chain
response count, and the per-chain responses (named separately so the suffix
of the parse can be referred to; the source inlines it). -/
def QueryResponse.read_tail (version request_chain_id : Nat) (request_id : Bytes) :
    M QueryResponse := do
  let request ← QueryRequest.deserialize_from_reader
  let num_per_chain_responses ← read_u8
  let responses ← replicateM num_per_chain_responses
    PerChainQueryResponse.deserialize_from_reader
  pure ⟨version, request_chain_id, request_id, request, responses⟩

/-- All the reads of `QueryResponse::deserialize_from_reader` in source order;
the final exact-consumption comparison of the cursor position against the
buffer length is performed by `QueryResponse.deserialize_from_reader` below
(the source performs the reads and the check in one function body). -/
def QueryResponse.deserialize_body : M QueryResponse := do
  let version ← read_u8
  if version ≠ QueryResponse.RESPONSE_VERSION then invalid "InvalidResponseVersion" else do
    let request_chain_id ← read_u16
    let request_id_len := if request_chain_id = 0 then 65 else 32
    alloc_zeroed request_id_len
    let request_id ← read_exact request_id_len
    let _ ← read_u32
    QueryResponse.read_tail version request_chain_id request_id

def QueryResponse.deserialize_from_reader : M QueryResponse := do
  let r ← QueryResponse.deserialize_body
  let p ← get_position
  let n ← get_len
  if p ≠ n then invalid "InvalidPayloadLength" else pure r

def QueryResponse.deserialize (data : Bytes) : Except Err QueryResponse :=
  (QueryResponse.deserialize_from_reader ⟨data, 0, []⟩).1

/-! ## Concrete buffers used by the witnesses -/

/-- The 24-byte request of spec scenario 1: version 1, nonce 1, one per-chain
query for chain 2, tag 1 (EthCall), discarded length 0, `block_tag`
"latest", zero call-data entries. -/
def reqBuf : Bytes :=
  [1, 0, 0, 0, 1, 1, 0, 2, 1, 0, 0, 0, 0, 0, 0, 0, 6,
   108, 97, 116, 101, 115, 116, 0]

/-- The decoded value of `reqBuf`. -/
def reqVal : QueryRequest :=
  ⟨1, 1, [⟨2, ChainSpecificQuery.EthCallQueryRequest ⟨[108, 97, 116, 101, 115, 116], []⟩⟩]⟩

/-- A 120-byte fully valid response: version 1, request chain id 5 (so a
32-byte request id of zeros), discarded length 0, the embedded `reqBuf`
request, and one EthCall per-chain response for chain 2 with block number 1,
zero hash, time 0, and no results. -/
def respBuf : Bytes :=
  [1, 0, 5] ++ List.replicate 32 0 ++ [0, 0, 0, 0] ++ reqBuf ++ [1] ++
    ([0, 2, 1, 0, 0, 0, 0] ++ [0, 0, 0, 0, 0, 0, 0, 1] ++ List.replicate 32 0 ++
      [0, 0, 0, 0, 0, 0, 0, 0] ++ [0])

/-- The decoded value of `respBuf`. -/
def respVal : QueryResponse :=
  ⟨1, 5, List.replicate 32 0, reqVal,
    [⟨2, ChainSpecificResponse.EthCallQueryResponse ⟨1, List.replicate 32 0, 0, []⟩⟩]⟩

/-- The single per-chain response inside `respBuf`. -/
def pcVal : PerChainQueryResponse :=
  ⟨2, ChainSpecificResponse.EthCallQueryResponse ⟨1, List.replicate 32 0, 0, []⟩⟩

instance {ε α : Type} [DecidableEq ε] [DecidableEq α] : DecidableEq (Except ε α) := fun
  | Except.ok a, Except.ok b =>
    if h : a = b then isTrue (by rw [h]) else isFalse (by intro hc; cases hc; exact h rfl)
  | Except.ok _, Except.error _ => isFalse (by intro hc; cases hc)
  | Except.error _, Except.ok _ => isFalse (by intro hc; cases hc)
  | Except.error e, Except.error e' =>
    if h : e = e' then isTrue (by rw [h]) else isFalse (by intro hc; cases hc; exact h rfl)

/-! ## Pointwise evaluation lemmas for the cursor monad -/

theorem bind_app {α β : Type} (m : M α) (f : α → M β) (c : Cursor) :
    (m >>= f) c = match m c with
      | (Except.ok a, c') => f a c'
      | (Except.error e, c') => (Except.error e, c') := rfl

theorem pure_app {α : Type} (a : α) (c : Cursor) : (pure a : M α) c = (Except.ok a, c) := rfl

theorem invalid_app {α : Type} (msg : String) (c : Cursor) :
    (invalid msg : M α) c = (Except.error (Err.invalidData msg), c) := rfl

theorem alloc_app (n : Nat) (c : Cursor) :
    alloc_zeroed n c = (Except.ok (), ⟨c.data, c.pos, c.allocs ++ [n]⟩) := rfl

theorem get_position_app (c : Cursor) : get_position c = (Except.ok c.pos, c) := rfl

theorem get_len_app (c : Cursor) : get_len c = (Except.ok c.data.length, c) := rfl

theorem replicateM_zero {α : Type} (m : M α) : replicateM 0 m = pure [] := rfl

theorem replicateM_succ {α : Type} (k : Nat) (m : M α) :
    replicateM (k + 1) m = (do
      let a ← m
      let rest ← replicateM k m
      pure (a :: rest)) := rfl

theorem bind_ok {α β : Type} {m : M α} {f : α → M β} {c c' : Cursor} {a : α}
    (h : m c = (Except.ok a, c')) : (m >>= f) c = f a c' := by
  rw [bind_app, h]

theorem bind_err {α β : Type} {m : M α} {f : α → M β} {c c' : Cursor} {e : Err}
    (h : m c = (Except.error e, c')) : (m >>= f) c = (Except.error e, c') := by
  rw [bind_app, h]

theorem bind_ok_inv {α β : Type} {m : M α} {f : α → M β} {c c'' : Cursor} {b : β}
    (h : (m >>= f) c = (Except.ok b, c'')) :
    ∃ a c', m c = (Except.ok a, c') ∧ f a c' = (Except.ok b, c'') := by
  rw [bind_app] at h
  rcases hm : m c with ⟨r, c'⟩
  rw [hm] at h
  cases r with
  | ok a => exact ⟨a, c', rfl, h⟩
  | error e => simp at h

theorem read_exact_ok {n : Nat} {c : Cursor} (h : n ≤ c.data.length - c.pos) :
    read_exact n c =
      (Except.ok ((c.data.drop c.pos).take n), ⟨c.data, c.pos + n, c.allocs⟩) := by
  unfold read_exact
  rw [if_pos h]

theorem read_exact_err {n : Nat} {c : Cursor} (h : c.data.length - c.pos < n) :
    read_exact n c = (Except.error Err.eof, ⟨c.data, c.data.length, c.allocs⟩) := by
  unfold read_exact
  rw [if_neg (by omega)]

theorem readUInt_ok {n : Nat} {c : Cursor} (h : c.pos + n ≤ c.data.length) :
    readUInt n c =
      (Except.ok (beNat ((c.data.drop c.pos).take n)), ⟨c.data, c.pos + n, c.allocs⟩) := by
  unfold readUInt
  rw [bind_ok (read_exact_ok (by omega))]
  rfl

theorem read_u8_ok {c : Cursor} (h : c.pos + 1 ≤ c.data.length) :
    read_u8 c =
      (Except.ok (beNat ((c.data.drop c.pos).take 1)), ⟨c.data, c.pos + 1, c.allocs⟩) :=
  readUInt_ok h

theorem read_u16_ok {c : Cursor} (h : c.pos + 2 ≤ c.data.length) :
    read_u16 c =
      (Except.ok (beNat ((c.data.drop c.pos).take 2)), ⟨c.data, c.pos + 2, c.allocs⟩) :=
  readUInt_ok h

theorem read_u32_ok {c : Cursor} (h : c.pos + 4 ≤ c.data.length) :
    read_u32 c =
      (Except.ok (beNat ((c.data.drop c.pos).take 4)), ⟨c.data, c.pos + 4, c.allocs⟩) :=
  readUInt_ok h

theorem seg_one {d : Bytes} {p b : Nat} (h : d[p]? = some b) :
    (d.drop p).take 1 = [b] := by
  have hlt : p < d.length := (List.getElem?_eq_some.mp h).1
  rw [List.drop_eq_getElem_cons hlt]
  simp [(List.getElem?_eq_some.mp h).2]

theorem read_u8_at {c : Cursor} {b : Nat} (h : c.data[c.pos]? = some b) :
    read_u8 c = (Except.ok b, ⟨c.data, c.pos + 1, c.allocs⟩) := by
  have hlt : c.pos < c.data.length := (List.getElem?_eq_some.mp h).1
  rw [read_u8_ok (by omega), seg_one h]
  simp [beNat]

theorem seg_two {d : Bytes} {p b0 b1 : Nat} (h0 : d[p]? = some b0)
    (h1 : d[p + 1]? = some b1) : (d.drop p).take 2 = [b0, b1] := by
  have hlt0 : p < d.length := (List.getElem?_eq_some.mp h0).1
  have hlt1 : p + 1 < d.length := (List.getElem?_eq_some.mp h1).1
  rw [List.drop_eq_getElem_cons hlt0, List.drop_eq_getElem_cons hlt1]
  simp [(List.getElem?_eq_some.mp h0).2, (List.getElem?_eq_some.mp h1).2]

theorem read_u16_at {c : Cursor} {b0 b1 : Nat} (h0 : c.data[c.pos]? = some b0)
    (h1 : c.data[c.pos + 1]? = some b1) :
    read_u16 c = (Except.ok (b0 * 256 + b1), ⟨c.data, c.pos + 2, c.allocs⟩) := by
  have hlt : c.pos + 1 < c.data.length := (List.getElem?_eq_some.mp h1).1
  rw [read_u16_ok (by omega), seg_two h0 h1]
  simp [beNat]

/-! ## Byte-segment lemmas -/

/-- Two buffers that agree (as `getElem?`) on the index range `[p, p+n)` have
equal `n`-byte segments at position `p`. -/
theorem seg_eq_of_eqOn {d d' : Bytes} {p n : Nat}
    (h : ∀ i, p ≤ i → i < p + n → d[i]? = d'[i]?) :
    (d.drop p).take n = (d'.drop p).take n := by
  apply List.ext_getElem?
  intro j
  rw [List.getElem?_take, List.getElem?_take]
  by_cases hj : j < n
  · rw [if_pos hj, if_pos hj, List.getElem?_drop, List.getElem?_drop]
    exact h (p + j) (by omega) (by omega)
  · rw [if_neg hj, if_neg hj]

/-- Two buffers with equal prefixes of length `p + n` have equal `n`-byte
segments at position `p`. -/
theorem seg_eq_of_take_eq {d d' : Bytes} {p n : Nat}
    (h : d'.take (p + n) = d.take (p + n)) :
    (d'.drop p).take n = (d.drop p).take n := by
  apply seg_eq_of_eqOn
  intro i hpi hin
  have := congrArg (fun l => l[i]?) h
  simpa [List.getElem?_take, if_pos (show i < p + n by omega)] using this

theorem splice_length {d w : Bytes} {p : Nat} (h : p + w.length ≤ d.length) :
    (splice d p w).length = d.length := by
  simp only [splice, List.length_append, List.length_take, List.length_drop]
  omega

theorem splice_getElem_low {d w : Bytes} {p i : Nat} (h : i < p) (hp : p ≤ d.length) :
    (splice d p w)[i]? = d[i]? := by
  have hlt : (d.take p).length = p := by simp [List.length_take]; omega
  have hlt2 : (d.take p ++ w).length = p + w.length := by
    rw [List.length_append, hlt]
  unfold splice
  rw [List.getElem?_append, if_pos (by omega), List.getElem?_append, if_pos (by omega),
    List.getElem?_take, if_pos h]

theorem splice_getElem_high {d w : Bytes} {p i : Nat} (hp : p ≤ d.length)
    (h : p + w.length ≤ i) :
    (splice d p w)[i]? = d[i]? := by
  have hlt : (d.take p).length = p := by simp [List.length_take]; omega
  have hlt2 : (d.take p ++ w).length = p + w.length := by
    rw [List.length_append, hlt]
  unfold splice
  rw [List.getElem?_append, if_neg (by omega), List.getElem?_drop, hlt2]
  congr 1
  omega

/-! ## Well-behaved parsers: frame, prefix-extension and locality -/

/-- The three structural properties every reader composed only of cursor
reads enjoys:

* `frame`: the buffer is never changed, the position never moves backwards
  and never past the end of the buffer;
* `ext`: a successful parse depends only on the prefix of the buffer it
  consumed: re-running on any buffer with the same prefix re-produces the
  same value, final position and allocation trace;
* `loc`: the entire outcome (result, final position, allocation trace)
  depends only on the buffer length and the bytes at positions at or after
  the start position.

The one reader that deliberately violates `ext` is the exact-consumption
check of `QueryResponse.deserialize_from_reader` (it reads the total buffer
length), which is why that check is handled separately in the theorems. -/
structure Wb {α : Type} (m : M α) : Prop where
  frame : ∀ c : Cursor, c.pos ≤ c.data.length →
    (m c).2.data = c.data ∧ c.pos ≤ (m c).2.pos ∧ (m c).2.pos ≤ c.data.length
  ext : ∀ (c : Cursor) (a : α) (c' : Cursor), c.pos ≤ c.data.length →
    m c = (Except.ok a, c') →
    ∀ d' : Bytes, d'.take c'.pos = c.data.take c'.pos → c'.pos ≤ d'.length →
      m ⟨d', c.pos, c.allocs⟩ = (Except.ok a, ⟨d', c'.pos, c'.allocs⟩)
  loc : ∀ (c : Cursor) (d' : Bytes), c.pos ≤ c.data.length →
    c.data.length = d'.length → (∀ i, c.pos ≤ i → c.data[i]? = d'[i]?) →
    (m ⟨d', c.pos, c.allocs⟩).1 = (m c).1 ∧
    (m ⟨d', c.pos, c.allocs⟩).2.pos = (m c).2.pos ∧
    (m ⟨d', c.pos, c.allocs⟩).2.allocs = (m c).2.allocs

theorem pair_ok_inv {α : Type} {r : Except Err α} {c : Cursor} {a : α} {c' : Cursor}
    (h : (r, c) = (Except.ok a, c')) : r = Except.ok a ∧ c = c' := by
  rw [Prod.mk.injEq] at h
  exact h

theorem wb_pure {α : Type} (a : α) : Wb (pure a : M α) := by
  constructor
  · intro c h
    exact ⟨rfl, Nat.le_refl _, h⟩
  · intro c b c' _ hm d' ht hl
    rw [pure_app] at hm
    obtain ⟨h1, h2⟩ := pair_ok_inv hm
    injection h1 with h1
    rw [← h2, ← h1]
    exact pure_app a _
  · intro c d' _ _ _
    exact ⟨rfl, rfl, rfl⟩

theorem wb_invalid {α : Type} (msg : String) : Wb (invalid msg : M α) := by
  constructor
  · intro c h
    exact ⟨rfl, Nat.le_refl _, h⟩
  · intro c b c' _ hm d' ht hl
    rw [invalid_app] at hm
    obtain ⟨h1, _⟩ := pair_ok_inv hm
    exact absurd h1 (by simp)
  · intro c d' _ _ _
    exact ⟨rfl, rfl, rfl⟩

theorem wb_read_exact (n : Nat) : Wb (read_exact n) := by
  constructor
  · intro c hpos
    by_cases hn : n ≤ c.data.length - c.pos
    · rw [read_exact_ok hn]
      refine ⟨rfl, ?_, ?_⟩
      · show c.pos ≤ c.pos + n
        omega
      · show c.pos + n ≤ c.data.length
        omega
    · rw [read_exact_err (by omega)]
      exact ⟨rfl, hpos, Nat.le_refl _⟩
  · intro c a c' hpos hm d' ht hl
    by_cases hn : n ≤ c.data.length - c.pos
    · rw [read_exact_ok hn] at hm
      obtain ⟨h1, h2⟩ := pair_ok_inv hm
      injection h1 with h1
      have hcp : c'.pos = c.pos + n := by rw [← h2]
      have hca : c'.allocs = c.allocs := by rw [← h2]
      have hl' : c.pos + n ≤ d'.length := by omega
      have hok : read_exact n ⟨d', c.pos, c.allocs⟩ =
          (Except.ok ((d'.drop c.pos).take n), ⟨d', c.pos + n, c.allocs⟩) :=
        read_exact_ok (show n ≤ d'.length - c.pos by omega)
      rw [hok, hcp, hca]
      have hseg : (d'.drop c.pos).take n = (c.data.drop c.pos).take n := by
        apply seg_eq_of_take_eq
        rw [← hcp]
        exact ht
      rw [hseg, h1]
    · rw [read_exact_err (by omega)] at hm
      obtain ⟨h1, _⟩ := pair_ok_inv hm
      exact absurd h1 (by simp)
  · intro c d' hpos hlen hag
    by_cases hn : n ≤ c.data.length - c.pos
    · have hok : read_exact n ⟨d', c.pos, c.allocs⟩ =
          (Except.ok ((d'.drop c.pos).take n), ⟨d', c.pos + n, c.allocs⟩) :=
        read_exact_ok (show n ≤ d'.length - c.pos by omega)
      rw [read_exact_ok hn, hok]
      refine ⟨?_, rfl, rfl⟩
      show Except.ok ((d'.drop c.pos).take n) = Except.ok ((c.data.drop c.pos).take n)
      rw [seg_eq_of_eqOn (fun i h1 _ => hag i h1)]
    · have herr : read_exact n ⟨d', c.pos, c.allocs⟩ =
          (Except.error Err.eof, ⟨d', d'.length, c.allocs⟩) :=
        read_exact_err (show d'.length - c.pos < n by omega)
      rw [herr, read_exact_err (by omega)]
      refine ⟨rfl, ?_, rfl⟩
      show d'.length = c.data.length
      omega

theorem wb_alloc (n : Nat) : Wb (alloc_zeroed n) := by
  constructor
  · intro c h
    exact ⟨rfl, Nat.le_refl _, h⟩
  · intro c a c' _ hm d' ht hl
    rw [alloc_app] at hm
    injection hm with h1 h2
    subst h2
    exact alloc_app n _
  · intro c d' _ _ _
    exact ⟨rfl, rfl, rfl⟩

theorem wb_bind {α β : Type} {m : M α} {f : α → M β}
    (hm : Wb m) (hf : ∀ a, Wb (f a)) : Wb (m >>= f) := by
  constructor
  · intro c hpos
    rw [bind_app]
    rcases h1 : m c with ⟨r, c1⟩
    obtain ⟨hd, hp, hb⟩ := hm.frame c hpos
    rw [h1] at hd hp hb
    cases r with
    | error e => exact ⟨hd, hp, hb⟩
    | ok a =>
      obtain ⟨hd2, hp2, hb2⟩ := (hf a).frame c1 (by rw [hd]; exact hb)
      refine ⟨by rw [hd2, hd], Nat.le_trans hp hp2, ?_⟩
      rw [hd] at hb2
      exact hb2
  · intro c b c'' hpos h d' ht hl
    rw [bind_app] at h
    rcases h1 : m c with ⟨r, c1⟩
    rw [h1] at h
    cases r with
    | error e => exact absurd h (by simp)
    | ok a =>
      have h' : f a c1 = (Except.ok b, c'') := h
      obtain ⟨hd, hp, hb⟩ := hm.frame c hpos
      rw [h1] at hd hp hb
      have hd0 : c1.data = c.data := hd
      have hp0 : c.pos ≤ c1.pos := hp
      have hb0 : c1.pos ≤ c.data.length := hb
      have hfr := (hf a).frame c1 (by rw [hd0]; exact hb0)
      rw [h'] at hfr
      obtain ⟨hd2, hp2, hb2⟩ := hfr
      have hp2' : c1.pos ≤ c''.pos := hp2
      have hm1 : m ⟨d', c.pos, c.allocs⟩ = (Except.ok a, ⟨d', c1.pos, c1.allocs⟩) := by
        apply hm.ext c a c1 hpos h1 d' ?_ (Nat.le_trans hp2' hl)
        calc d'.take c1.pos = (d'.take c''.pos).take c1.pos := by
              rw [List.take_take, min_eq_left hp2']
          _ = (c.data.take c''.pos).take c1.pos := by rw [ht]
          _ = c.data.take c1.pos := by rw [List.take_take, min_eq_left hp2']
      rw [bind_ok hm1]
      have ht2 : d'.take c''.pos = c1.data.take c''.pos := by rw [hd0]; exact ht
      exact (hf a).ext c1 b c'' (by rw [hd0]; exact hb0) h' d' ht2 hl
  · intro c d' hpos hlen hag
    rw [bind_app, bind_app]
    rcases h1 : m c with ⟨r, c1⟩
    rcases h2 : m ⟨d', c.pos, c.allocs⟩ with ⟨r', c1'⟩
    obtain ⟨l1, l2, l3⟩ := hm.loc c d' hpos hlen hag
    rw [h1, h2] at l1 l2 l3
    have l1' : r' = r := l1
    have l2' : c1'.pos = c1.pos := l2
    have l3' : c1'.allocs = c1.allocs := l3
    rw [l1']
    cases r with
    | error e => exact ⟨rfl, l2', l3'⟩
    | ok a =>
      obtain ⟨hd, hp, hb⟩ := hm.frame c hpos
      rw [h1] at hd hp hb
      have hd0 : c1.data = c.data := hd
      have hp0 : c.pos ≤ c1.pos := hp
      have hb0 : c1.pos ≤ c.data.length := hb
      obtain ⟨hd', _, _⟩ := hm.frame ⟨d', c.pos, c.allocs⟩
        (show c.pos ≤ d'.length by omega)
      rw [h2] at hd'
      have hd'' : c1'.data = d' := hd'
      have hc1' : c1' = ⟨d', c1.pos, c1.allocs⟩ := by
        rw [← hd'', ← l2', ← l3']
      rw [hc1']
      exact (hf a).loc c1 d' (by rw [hd0]; exact hb0) (by rw [hd0]; exact hlen)
        (fun i hi => by rw [hd0]; exact hag i (Nat.le_trans hp0 hi))

theorem wb_ite {α : Type} {P : Prop} [Decidable P] {m₁ m₂ : M α}
    (h1 : Wb m₁) (h2 : Wb m₂) : Wb (if P then m₁ else m₂) := by
  by_cases h : P
  · rw [if_pos h]; exact h1
  · rw [if_neg h]; exact h2

theorem wb_replicateM {α : Type} (n : Nat) {m : M α} (hm : Wb m) :
    Wb (replicateM n m) := by
  induction n with
  | zero => rw [replicateM_zero]; exact wb_pure []
  | succ k ih =>
    rw [replicateM_succ]
    exact wb_bind hm fun a => wb_bind ih fun rest => wb_pure _

theorem wb_readUInt (n : Nat) : Wb (readUInt n) :=
  wb_bind (wb_read_exact n) fun _ => wb_pure _

theorem wb_read_u8 : Wb read_u8 := wb_readUInt 1

theorem wb_read_u16 : Wb read_u16 := wb_readUInt 2

theorem wb_read_u32 : Wb read_u32 := wb_readUInt 4

theorem wb_read_u64 : Wb read_u64 := wb_readUInt 8

theorem wb_read_string (msg : String) : Wb (read_string msg) := by
  unfold read_string
  exact wb_bind wb_read_u32 fun len =>
    wb_bind (wb_alloc len) fun _ =>
      wb_bind (wb_read_exact len) fun buf =>
        wb_ite (wb_pure buf) (wb_invalid msg)

theorem wb_readEthCallData : Wb readEthCallData := by
  unfold readEthCallData
  exact wb_bind (wb_read_exact 20) fun addr =>
    wb_bind wb_read_u32 fun data_len =>
      wb_bind (wb_alloc data_len) fun _ =>
        wb_bind (wb_read_exact data_len) fun data => wb_pure _

theorem wb_EthCallQueryRequest : Wb EthCallQueryRequest.deserialize_from_reader := by
  unfold EthCallQueryRequest.deserialize_from_reader
  exact wb_bind (wb_read_string _) fun block_tag =>
    wb_bind wb_read_u8 fun n =>
      wb_bind (wb_replicateM n wb_readEthCallData) fun l => wb_pure _

theorem wb_EthCallByTimestampQueryRequest :
    Wb EthCallByTimestampQueryRequest.deserialize_from_reader := by
  unfold EthCallByTimestampQueryRequest.deserialize_from_reader
  exact wb_bind wb_read_u64 fun ts =>
    wb_bind (wb_read_string _) fun h1 =>
      wb_bind (wb_read_string _) fun h2 =>
        wb_bind wb_read_u8 fun n =>
          wb_bind (wb_replicateM n wb_readEthCallData) fun l => wb_pure _

theorem wb_EthCallWithFinalityQueryRequest :
    Wb EthCallWithFinalityQueryRequest.deserialize_from_reader := by
  unfold EthCallWithFinalityQueryRequest.deserialize_from_reader
  exact wb_bind (wb_read_string _) fun bt =>
    wb_bind (wb_read_string _) fun fin =>
      wb_bind wb_read_u8 fun n =>
        wb_bind (wb_replicateM n wb_readEthCallData) fun l => wb_pure _

theorem wb_SolanaAccountQueryRequest :
    Wb SolanaAccountQueryRequest.deserialize_from_reader := by
  unfold SolanaAccountQueryRequest.deserialize_from_reader
  exact wb_bind (wb_read_string _) fun comm =>
    wb_bind wb_read_u64 fun s1 =>
      wb_bind wb_read_u64 fun s2 =>
        wb_bind wb_read_u64 fun s3 =>
          wb_bind wb_read_u8 fun n =>
            wb_bind (wb_replicateM n (wb_read_exact 32)) fun l => wb_pure _

theorem wb_PerChainQueryRequest_dispatch (cid t : Nat) :
    Wb (PerChainQueryRequest.dispatch cid t) := by
  unfold PerChainQueryRequest.dispatch
  exact wb_ite (wb_bind wb_EthCallQueryRequest fun q => wb_pure _)
    (wb_ite (wb_bind wb_EthCallByTimestampQueryRequest fun q => wb_pure _)
      (wb_ite (wb_bind wb_EthCallWithFinalityQueryRequest fun q => wb_pure _)
        (wb_ite (wb_bind wb_SolanaAccountQueryRequest fun q => wb_pure _)
          (wb_invalid _))))

theorem wb_PerChainQueryRequest : Wb PerChainQueryRequest.deserialize_from_reader := by
  unfold PerChainQueryRequest.deserialize_from_reader
  exact wb_bind wb_read_u16 fun cid =>
    wb_bind wb_read_u8 fun t =>
      wb_bind wb_read_u32 fun _ => wb_PerChainQueryRequest_dispatch cid t

theorem wb_QueryRequest : Wb QueryRequest.deserialize_from_reader := by
  unfold QueryRequest.deserialize_from_reader
  exact wb_bind wb_read_u8 fun version =>
    wb_ite (wb_invalid _)
      (wb_bind wb_read_u32 fun nonce =>
        wb_bind wb_read_u8 fun num =>
          wb_ite (wb_invalid _)
            (wb_bind (wb_replicateM num wb_PerChainQueryRequest) fun reqs => wb_pure _))

theorem wb_readResultBlob : Wb readResultBlob := by
  unfold readResultBlob
  exact wb_bind wb_read_u32 fun n =>
    wb_bind (wb_alloc n) fun _ =>
      wb_bind (wb_read_exact n) fun r => wb_pure _

theorem wb_EthCallQueryResponse : Wb EthCallQueryResponse.deserialize_from_reader := by
  unfold EthCallQueryResponse.deserialize_from_reader
  exact wb_bind wb_read_u64 fun bn =>
    wb_bind (wb_read_exact 32) fun bh =>
      wb_bind wb_read_u64 fun bt =>
        wb_bind wb_read_u8 fun n =>
          wb_bind (wb_replicateM n wb_readResultBlob) fun rs => wb_pure _

theorem wb_EthCallByTimestampQueryResponse :
    Wb EthCallByTimestampQueryResponse.deserialize_from_reader := by
  unfold EthCallByTimestampQueryResponse.deserialize_from_reader
  exact wb_bind wb_read_u64 fun a1 =>
    wb_bind (wb_read_exact 32) fun a2 =>
      wb_bind wb_read_u64 fun a3 =>
        wb_bind wb_read_u64 fun a4 =>
          wb_bind (wb_read_exact 32) fun a5 =>
            wb_bind wb_read_u64 fun a6 =>
              wb_bind wb_read_u8 fun n =>
                wb_bind (wb_replicateM n wb_readResultBlob) fun rs => wb_pure _

theorem wb_EthCallWithFinalityQueryResponse :
    Wb EthCallWithFinalityQueryResponse.deserialize_from_reader := by
  unfold EthCallWithFinalityQueryResponse.deserialize_from_reader
  exact wb_bind wb_EthCallQueryResponse fun r => wb_pure _

theorem wb_readSolanaAccountResult : Wb readSolanaAccountResult := by
  unfold readSolanaAccountResult
  exact wb_bind wb_read_u64 fun a1 =>
    wb_bind wb_read_u64 fun a2 =>
      wb_bind wb_read_u8 fun e =>
        wb_bind (wb_read_exact 32) fun ow =>
          wb_bind wb_read_u32 fun n =>
            wb_bind (wb_alloc n) fun _ =>
              wb_bind (wb_read_exact n) fun dat => wb_pure _

theorem wb_SolanaAccountQueryResponse :
    Wb SolanaAccountQueryResponse.deserialize_from_reader := by
  unfold SolanaAccountQueryResponse.deserialize_from_reader
  exact wb_bind wb_read_u64 fun a1 =>
    wb_bind wb_read_u64 fun a2 =>
      wb_bind (wb_read_exact 32) fun a3 =>
        wb_bind wb_read_u8 fun n =>
          wb_bind (wb_replicateM n wb_readSolanaAccountResult) fun rs => wb_pure _

theorem wb_PerChainQueryResponse_dispatch (cid t : Nat) :
    Wb (PerChainQueryResponse.dispatch cid t) := by
  unfold PerChainQueryResponse.dispatch
  exact wb_ite (wb_bind wb_EthCallQueryResponse fun r => wb_pure _)
    (wb_ite (wb_bind wb_EthCallByTimestampQueryResponse fun r => wb_pure _)
      (wb_ite (wb_bind wb_EthCallWithFinalityQueryResponse fun r => wb_pure _)
        (wb_ite (wb_bind wb_SolanaAccountQueryResponse fun r => wb_pure _)
          (wb_invalid _))))

theorem wb_PerChainQueryResponse : Wb PerChainQueryResponse.deserialize_from_reader := by
  unfold PerChainQueryResponse.deserialize_from_reader
  exact wb_bind wb_read_u16 fun cid =>
    wb_bind wb_read_u8 fun t =>
      wb_bind wb_read_u32 fun _ => wb_PerChainQueryResponse_dispatch cid t

theorem wb_QueryResponse_read_tail (v cid : Nat) (rid : Bytes) :
    Wb (QueryResponse.read_tail v cid rid) := by
  unfold QueryResponse.read_tail
  exact wb_bind wb_QueryRequest fun req =>
    wb_bind wb_read_u8 fun n =>
      wb_bind (wb_replicateM n wb_PerChainQueryResponse) fun rs => wb_pure _

theorem wb_QueryResponse_body : Wb QueryResponse.deserialize_body := by
  unfold QueryResponse.deserialize_body
  exact wb_bind wb_read_u8 fun version =>
    wb_ite (wb_invalid _)
      (wb_bind wb_read_u16 fun cid =>
        wb_bind (wb_alloc _) fun _ =>
          wb_bind (wb_read_exact _) fun rid =>
            wb_bind wb_read_u32 fun _ => wb_QueryResponse_read_tail version cid rid)

/-! ## Derived consequences: truncation failure and trailing-byte extension -/

/-- A well-behaved parser that succeeds on a buffer fails on every truncation
of that buffer strictly before its final consumed position. -/
theorem wb_truncate {α : Type} {m : M α} (hm : Wb m) {data : Bytes} {a : α}
    {c' : Cursor} (h : m ⟨data, 0, []⟩ = (Except.ok a, c')) {k : Nat}
    (hk : k < c'.pos) :
    ∃ e c2, m ⟨data.take k, 0, []⟩ = (Except.error e, c2) := by
  rcases h2 : m ⟨data.take k, 0, []⟩ with ⟨r, c2⟩
  cases r with
  | error e => exact ⟨e, c2, rfl⟩
  | ok b =>
    exfalso
    obtain ⟨_, _, hb2⟩ := hm.frame ⟨data.take k, 0, []⟩ (by simp)
    rw [h2] at hb2
    have hb2' : c2.pos ≤ (data.take k).length := hb2
    have hc2k : c2.pos ≤ k := by
      have := List.length_take k data
      omega
    obtain ⟨_, _, hb1⟩ := hm.frame ⟨data, 0, []⟩ (by simp)
    rw [h] at hb1
    have hb1' : c'.pos ≤ data.length := hb1
    have hext := hm.ext ⟨data.take k, 0, []⟩ b c2 (by simp) h2 data
      (by rw [List.take_take, min_eq_left hc2k]) (by omega)
    rw [h] at hext
    obtain ⟨_, hC⟩ := pair_ok_inv hext.symm
    have : c'.pos = c2.pos := by rw [← hC]
    omega

/-- A well-behaved parser that succeeds on a buffer succeeds identically on
that buffer with any bytes appended. -/
theorem wb_extend {α : Type} {m : M α} (hm : Wb m) (extra : Bytes) {data : Bytes} {a : α}
    {c' : Cursor} (h : m ⟨data, 0, []⟩ = (Except.ok a, c')) :
    m ⟨data ++ extra, 0, []⟩ = (Except.ok a, ⟨data ++ extra, c'.pos, c'.allocs⟩) := by
  obtain ⟨_, _, hb⟩ := hm.frame ⟨data, 0, []⟩ (by simp)
  rw [h] at hb
  have hb' : c'.pos ≤ data.length := hb
  apply hm.ext ⟨data, 0, []⟩ a c' (by simp) h
  · rw [List.take_append_eq_append_take, Nat.sub_eq_zero_of_le hb']
    simp
  · rw [List.length_append]
    omega

/-! ## Evaluation of the concrete buffers -/

theorem reqBuf_reader_eval : QueryRequest.deserialize_from_reader ⟨reqBuf, 0, []⟩ =
    (Except.ok reqVal, ⟨reqBuf, 24, [6]⟩) := by decide

theorem reqBuf_eval : QueryRequest.deserialize reqBuf = Except.ok reqVal := by
  show (QueryRequest.deserialize_from_reader ⟨reqBuf, 0, []⟩).1 = Except.ok reqVal
  rw [reqBuf_reader_eval]

theorem respBuf_body_eval : QueryResponse.deserialize_body ⟨respBuf, 0, []⟩ =
    (Except.ok respVal, ⟨respBuf, 120, [32, 6]⟩) := by
  have h1 : read_u8 ⟨respBuf, 0, []⟩ = (Except.ok 1, ⟨respBuf, 1, []⟩) := by decide
  have h2 : read_u16 ⟨respBuf, 1, []⟩ = (Except.ok 5, ⟨respBuf, 3, []⟩) := by decide
  have h3 : alloc_zeroed 32 ⟨respBuf, 3, []⟩ = (Except.ok (), ⟨respBuf, 3, [32]⟩) := rfl
  have h4 : read_exact 32 ⟨respBuf, 3, [32]⟩ =
      (Except.ok (List.replicate 32 0), ⟨respBuf, 35, [32]⟩) := by decide
  have h5 : read_u32 ⟨respBuf, 35, [32]⟩ = (Except.ok 0, ⟨respBuf, 39, [32]⟩) := by decide
  have h6 : QueryRequest.deserialize_from_reader ⟨respBuf, 39, [32]⟩ =
      (Except.ok reqVal, ⟨respBuf, 63, [32, 6]⟩) := by decide
  have h7 : read_u8 ⟨respBuf, 63, [32, 6]⟩ = (Except.ok 1, ⟨respBuf, 64, [32, 6]⟩) := by
    decide
  have h8 : PerChainQueryResponse.deserialize_from_reader ⟨respBuf, 64, [32, 6]⟩ =
      (Except.ok pcVal, ⟨respBuf, 120, [32, 6]⟩) := by decide
  simp only [QueryResponse.deserialize_body, QueryResponse.read_tail,
    QueryResponse.RESPONSE_VERSION, bind_app, replicateM_succ, replicateM_zero, pure_app,
    h1, h2, h3, h4, h5, h6, h7, h8,
    if_neg (show ¬((1 : Nat) ≠ 1) by decide), if_neg (show ¬((5 : Nat) = 0) by decide),
    respVal, pcVal, reqVal]

theorem respBuf_reader_eval : QueryResponse.deserialize_from_reader ⟨respBuf, 0, []⟩ =
    (Except.ok respVal, ⟨respBuf, 120, [32, 6]⟩) := by
  unfold QueryResponse.deserialize_from_reader
  rw [bind_ok respBuf_body_eval, bind_ok (get_position_app _), bind_ok (get_len_app _)]
  rw [if_neg (show ¬((⟨respBuf, 120, [32, 6]⟩ : Cursor).pos ≠
    ((⟨respBuf, 120, [32, 6]⟩ : Cursor).data.length)) by decide)]
  exact pure_app _ _

theorem respBuf_eval : QueryResponse.deserialize respBuf = Except.ok respVal := by
  show (QueryResponse.deserialize_from_reader ⟨respBuf, 0, []⟩).1 = Except.ok respVal
  rw [respBuf_reader_eval]

/-! ## Inversion of the response root parser -/

theorem read_exact_len {n : Nat} {c c' : Cursor} {bs : Bytes}
    (h : read_exact n c = (Except.ok bs, c')) : bs.length = n := by
  by_cases hn : n ≤ c.data.length - c.pos
  · rw [read_exact_ok hn] at h
    obtain ⟨h1, _⟩ := pair_ok_inv h
    injection h1 with h1
    rw [← h1, List.length_take, List.length_drop]
    omega
  · rw [read_exact_err (by omega)] at h
    exact absurd (pair_ok_inv h).1 (by simp)

/-- When the body of the response parser fails, the whole response decode
fails with the same error. -/
theorem resp_fail_of_body_fail {data : Bytes} {e : Err} {cb : Cursor}
    (h : QueryResponse.deserialize_body ⟨data, 0, []⟩ = (Except.error e, cb)) :
    QueryResponse.deserialize data = Except.error e := by
  show (QueryResponse.deserialize_from_reader ⟨data, 0, []⟩).1 = Except.error e
  unfold QueryResponse.deserialize_from_reader
  rw [bind_err h]

/-- When the body of the response parser succeeds but does not end exactly at
the end of the buffer, the response decode fails with `InvalidPayloadLength`. -/
theorem resp_payload_mismatch {data : Bytes} {r : QueryResponse} {cb : Cursor}
    (h : QueryResponse.deserialize_body ⟨data, 0, []⟩ = (Except.ok r, cb))
    (hne : cb.pos ≠ data.length) :
    QueryResponse.deserialize data = Except.error (Err.invalidData "InvalidPayloadLength") := by
  show (QueryResponse.deserialize_from_reader ⟨data, 0, []⟩).1 = _
  unfold QueryResponse.deserialize_from_reader
  rw [bind_ok h]
  simp only [bind_app, get_position_app, get_len_app]
  obtain ⟨hd, _, _⟩ := wb_QueryResponse_body.frame ⟨data, 0, []⟩ (by simp)
  rw [h] at hd
  have hd' : cb.data = data := hd
  rw [if_pos (show cb.pos ≠ cb.data.length by rw [hd']; exact hne)]
  rfl

/-- A successful response decode is exactly a successful body run that ends
at the end of the buffer. -/
theorem resp_ok_inv {data : Bytes} {r : QueryResponse}
    (h : QueryResponse.deserialize data = Except.ok r) :
    ∃ al, QueryResponse.deserialize_body ⟨data, 0, []⟩ =
      (Except.ok r, ⟨data, data.length, al⟩) := by
  have h' : (QueryResponse.deserialize_from_reader ⟨data, 0, []⟩).1 = Except.ok r := h
  unfold QueryResponse.deserialize_from_reader at h'
  rcases hb : QueryResponse.deserialize_body ⟨data, 0, []⟩ with ⟨rb, cb⟩
  rw [bind_app, hb] at h'
  cases rb with
  | error e => simp at h'
  | ok rv =>
    simp only [bind_app, get_position_app, get_len_app] at h'
    obtain ⟨hd, _, _⟩ := wb_QueryResponse_body.frame ⟨data, 0, []⟩ (by simp)
    rw [hb] at hd
    have hd' : cb.data = data := hd
    by_cases hpe : cb.pos = cb.data.length
    · rw [if_neg (show ¬cb.pos ≠ cb.data.length from fun hne => hne hpe), pure_app] at h'
      have hvr : rv = r := by
        have h'' : Except.ok (ε := Err) rv = Except.ok r := h'
        injection h''
      refine ⟨cb.allocs, ?_⟩
      rw [hvr]
      have hcb : cb = ⟨data, data.length, cb.allocs⟩ := by
        rw [← hd', ← hpe]
      rw [hcb]
    · rw [if_pos hpe, invalid_app] at h'
      simp at h'

/-! ## The claims -/

/-- C1: for every well-formed message, truncating its buffer strictly before
the final consumed byte makes the decode return an error (no partial value;
the model is total, so no panic exists).  For a request, the final consumed
byte is the final cursor position of the successful parse; for a response,
the exact-consumption check forces that position to be the buffer length. -/
theorem C1_truncation_fails :
    (∀ (data : Bytes) (a : QueryRequest) (c' : Cursor),
        QueryRequest.deserialize_from_reader ⟨data, 0, []⟩ = (Except.ok a, c') →
        ∀ k, k < c'.pos → ∃ e, QueryRequest.deserialize (data.take k) = Except.error e) ∧
    (∀ (data : Bytes) (a : QueryResponse),
        QueryResponse.deserialize data = Except.ok a →
        ∀ k, k < data.length → ∃ e, QueryResponse.deserialize (data.take k) = Except.error e) := by
  constructor
  · intro data a c' h k hk
    obtain ⟨e, c2, he⟩ := wb_truncate wb_QueryRequest h hk
    refine ⟨e, ?_⟩
    show (QueryRequest.deserialize_from_reader ⟨data.take k, 0, []⟩).1 = Except.error e
    rw [he]
  · intro data a h k hk
    obtain ⟨al, hb⟩ := resp_ok_inv h
    have hk' : k < (⟨data, data.length, al⟩ : Cursor).pos := hk
    obtain ⟨e, c2, he⟩ := wb_truncate wb_QueryResponse_body hb hk'
    exact ⟨e, resp_fail_of_body_fail he⟩

theorem C1_witness :
    (∃ e, QueryRequest.deserialize (reqBuf.take 5) = Except.error e) ∧
    (∃ e, QueryResponse.deserialize (respBuf.take 10) = Except.error e) :=
  ⟨C1_truncation_fails.1 reqBuf reqVal ⟨reqBuf, 24, [6]⟩ reqBuf_reader_eval 5 (by decide),
   C1_truncation_fails.2 respBuf respVal respBuf_eval 10 (by decide)⟩

/-- C2: at the failing input `[0xFF, 0xFF, 0xFF, 0xFF]` (a declared
`block_tag` length of 4294967295 with zero bytes remaining), the EthCall
request parser does fail with the end-of-file error, but only after the
source has executed `vec![0u8; 4294967295]` — the ghost allocation trace
records the attacker-controlled size, demonstrating that the length is not
checked against the remaining buffer before the allocation. -/
theorem C2_alloc_before_length_check :
    EthCallQueryRequest.deserialize_from_reader ⟨[255, 255, 255, 255], 0, []⟩ =
      (Except.error Err.eof, ⟨[255, 255, 255, 255], 4, [4294967295]⟩) := by decide

/-- C3: after the structural fields of a response are decoded, the parser
compares the final cursor position with the buffer length and fails with
`InvalidPayloadLength` on any mismatch; in particular a fully valid response
with any non-empty suffix appended (such as one extra byte) fails with
`InvalidPayloadLength`. -/
theorem C3_exact_consumption :
    (∀ (data : Bytes) (r : QueryResponse) (c' : Cursor),
        QueryResponse.deserialize_body ⟨data, 0, []⟩ = (Except.ok r, c') →
        c'.pos ≠ data.length →
        QueryResponse.deserialize data =
          Except.error (Err.invalidData "InvalidPayloadLength")) ∧
    (∀ (data : Bytes) (r : QueryResponse) (extra : Bytes),
        QueryResponse.deserialize data = Except.ok r → extra ≠ [] →
        QueryResponse.deserialize (data ++ extra) =
          Except.error (Err.invalidData "InvalidPayloadLength")) := by
  have part1 : ∀ (data : Bytes) (r : QueryResponse) (c' : Cursor),
      QueryResponse.deserialize_body ⟨data, 0, []⟩ = (Except.ok r, c') →
      c'.pos ≠ data.length →
      QueryResponse.deserialize data =
        Except.error (Err.invalidData "InvalidPayloadLength") :=
    fun data r c' h hne => resp_payload_mismatch h hne
  refine ⟨part1, ?_⟩
  intro data r extra h hne
  obtain ⟨al, hb⟩ := resp_ok_inv h
  have hext := wb_extend wb_QueryResponse_body extra hb
  have hlp : 0 < extra.length := List.length_pos.mpr hne
  apply part1 (data ++ extra) r ⟨data ++ extra, data.length, al⟩ hext
  show data.length ≠ (data ++ extra).length
  rw [List.length_append]
  omega

theorem C3_witness :
    QueryResponse.deserialize (respBuf ++ [255]) =
      Except.error (Err.invalidData "InvalidPayloadLength") ∧
    QueryResponse.deserialize (respBuf ++ [7, 7]) =
      Except.error (Err.invalidData "InvalidPayloadLength") :=
  ⟨C3_exact_consumption.1 (respBuf ++ [255]) respVal ⟨respBuf ++ [255], 120, [32, 6]⟩
      (wb_extend wb_QueryResponse_body [255] respBuf_body_eval) (by decide),
   C3_exact_consumption.2 respBuf respVal [7, 7] respBuf_eval (by decide)⟩

/-- C4: a request buffer whose first byte is not 1 fails with
`VersionMismatch`, and a response buffer whose first byte is not 1 fails with
`InvalidResponseVersion`, whatever the remaining bytes are. -/
theorem C4_version_mismatch :
    (∀ (data : Bytes) (v : Nat), data[0]? = some v → v ≠ 1 →
        QueryRequest.deserialize data = Except.error (Err.invalidData "VersionMismatch")) ∧
    (∀ (data : Bytes) (v : Nat), data[0]? = some v → v ≠ 1 →
        QueryResponse.deserialize data =
          Except.error (Err.invalidData "InvalidResponseVersion")) := by
  constructor
  · intro data v h hv
    have h8 : read_u8 ⟨data, 0, []⟩ = (Except.ok v, ⟨data, 1, []⟩) := read_u8_at h
    show (QueryRequest.deserialize_from_reader ⟨data, 0, []⟩).1 = _
    simp only [QueryRequest.deserialize_from_reader, QueryRequest.REQUEST_VERSION,
      bind_app, h8]
    rw [if_pos hv]
    rfl
  · intro data v h hv
    have h8 : read_u8 ⟨data, 0, []⟩ = (Except.ok v, ⟨data, 1, []⟩) := read_u8_at h
    have hbody : QueryResponse.deserialize_body ⟨data, 0, []⟩ =
        (Except.error (Err.invalidData "InvalidResponseVersion"), ⟨data, 1, []⟩) := by
      simp only [QueryResponse.deserialize_body, QueryResponse.RESPONSE_VERSION,
        bind_app, h8]
      rw [if_pos hv]
      rfl
    exact resp_fail_of_body_fail hbody

theorem C4_witness :
    QueryRequest.deserialize [2] = Except.error (Err.invalidData "VersionMismatch") ∧
    QueryResponse.deserialize [0] = Except.error (Err.invalidData "InvalidResponseVersion") :=
  ⟨C4_version_mismatch.1 [2] 2 rfl (by decide),
   C4_version_mismatch.2 [0] 0 rfl (by decide)⟩

/-- C6: a request buffer with the supported version byte and a per-chain
query count byte of 0 fails with `ZeroQueries`. -/
theorem C6_zero_queries :
    ∀ data : Bytes, data[0]? = some 1 → data[5]? = some 0 →
      QueryRequest.deserialize data = Except.error (Err.invalidData "ZeroQueries") := by
  intro data h0 h5
  have hlen : 5 < data.length := (List.getElem?_eq_some.mp h5).1
  have h8 : read_u8 ⟨data, 0, []⟩ = (Except.ok 1, ⟨data, 1, []⟩) := read_u8_at h0
  have h32 : read_u32 ⟨data, 1, []⟩ =
      (Except.ok (beNat ((data.drop 1).take 4)), ⟨data, 5, []⟩) :=
    read_u32_ok (show 1 + 4 ≤ data.length by omega)
  have h8' : read_u8 ⟨data, 5, []⟩ = (Except.ok 0, ⟨data, 6, []⟩) := read_u8_at h5
  show (QueryRequest.deserialize_from_reader ⟨data, 0, []⟩).1 = _
  simp only [QueryRequest.deserialize_from_reader, QueryRequest.REQUEST_VERSION,
    bind_app, h8, h32, h8', if_neg (show ¬((1 : Nat) ≠ 1) by decide),
    if_pos (show (0 : Nat) = 0 from rfl)]
  rfl

theorem C6_witness :
    QueryRequest.deserialize [1, 0, 0, 0, 0, 0] =
      Except.error (Err.invalidData "ZeroQueries") :=
  C6_zero_queries [1, 0, 0, 0, 0, 0] rfl rfl

/-- C7: every successfully decoded response carries a `request_id` of exactly
65 bytes when `request_chain_id = 0` and exactly 32 bytes otherwise. -/
theorem C7_request_id_length :
    ∀ (data : Bytes) (r : QueryResponse), QueryResponse.deserialize data = Except.ok r →
      r.request_id.length = if r.request_chain_id = 0 then 65 else 32 := by
  intro data r h
  obtain ⟨al, hb⟩ := resp_ok_inv h
  unfold QueryResponse.deserialize_body at hb
  obtain ⟨v, c1, h1, h2⟩ := bind_ok_inv hb
  by_cases hv : v = QueryResponse.RESPONSE_VERSION
  · rw [if_neg (show ¬v ≠ QueryResponse.RESPONSE_VERSION from fun hne => hne hv)] at h2
    obtain ⟨cid, c2, h3, h4⟩ := bind_ok_inv h2
    obtain ⟨u, c3, h5, h6⟩ := bind_ok_inv h4
    obtain ⟨rid, c4, h7, h8⟩ := bind_ok_inv h6
    have hridlen : rid.length = (if cid = 0 then 65 else 32) := read_exact_len h7
    obtain ⟨w, c5, h9, h10⟩ := bind_ok_inv h8
    unfold QueryResponse.read_tail at h10
    obtain ⟨req, c6, h11, h12⟩ := bind_ok_inv h10
    obtain ⟨num, c7, h13, h14⟩ := bind_ok_inv h12
    obtain ⟨resps, c8, h15, h16⟩ := bind_ok_inv h14
    rw [pure_app] at h16
    obtain ⟨h17, _⟩ := pair_ok_inv h16
    injection h17 with h17
    rw [← h17]
    exact hridlen
  · rw [if_pos hv] at h2
    rw [invalid_app] at h2
    exact absurd (pair_ok_inv h2).1 (by simp)

theorem C7_witness :
    respVal.request_id.length = if respVal.request_chain_id = 0 then 65 else 32 :=
  C7_request_id_length respBuf respVal respBuf_eval

/-- C8: the EthCallWithFinality response parser is the EthCall response
parser with the result fields repackaged: on every cursor it returns the
same final cursor (same bytes consumed, same allocations) and the mapped
outcome — the same error, or a success whose `block_number`, `block_hash`,
`block_time` and `results` are field-for-field those of the EthCall parse. -/
theorem C8_with_finality_reuses_eth_call :
    ∀ c : Cursor,
      EthCallWithFinalityQueryResponse.deserialize_from_reader c =
        ((EthCallQueryResponse.deserialize_from_reader c).1.map
            (fun r => ⟨r.block_number, r.block_hash, r.block_time, r.results⟩),
          (EthCallQueryResponse.deserialize_from_reader c).2) := by
  intro c
  unfold EthCallWithFinalityQueryResponse.deserialize_from_reader
  rw [bind_app]
  rcases h : EthCallQueryResponse.deserialize_from_reader c with ⟨r, c'⟩
  cases r with
  | ok a => rfl
  | error e => rfl

/-- C10: the request decoder performs no exact-consumption check: appending
any suffix to a buffer that decodes successfully still decodes successfully
to the same value, silently ignoring the trailing bytes. -/
theorem C10_trailing_bytes_ignored :
    ∀ (b s : Bytes) (q : QueryRequest),
      QueryRequest.deserialize b = Except.ok q →
      QueryRequest.deserialize (b ++ s) = Except.ok q := by
  intro b s q h
  have h' : (QueryRequest.deserialize_from_reader ⟨b, 0, []⟩).1 = Except.ok q := h
  rcases hp : QueryRequest.deserialize_from_reader ⟨b, 0, []⟩ with ⟨r, c'⟩
  rw [hp] at h'
  have h'' : r = Except.ok q := h'
  rw [h''] at hp
  show (QueryRequest.deserialize_from_reader ⟨b ++ s, 0, []⟩).1 = Except.ok q
  rw [wb_extend wb_QueryRequest s hp]

theorem C10_witness :
    QueryRequest.deserialize (reqBuf ++ [255]) = Except.ok reqVal :=
  C10_trailing_bytes_ignored reqBuf [255] reqVal reqBuf_eval

/-- C5: a per-chain query or response whose 1-byte type tag (read after the
2-byte chain id, and followed by the 4-byte discarded length field present in
the header) is outside {1, 2, 3, 4} makes the per-chain parser fail with
`UnsupportedQueryType` / `UnsupportedResponseType`, consuming exactly the
7-byte header; and the error aborts the whole request decode with no partial
result (shown for the first per-chain query of a request buffer; the decoder
returns `Except`, so no partial value exists on any error). -/
theorem C5_unsupported_tag :
    (∀ (data : Bytes) (pos : Nat) (al : List Nat) (t : Nat),
        pos + 7 ≤ data.length → data[pos + 2]? = some t →
        t ≠ 1 → t ≠ 2 → t ≠ 3 → t ≠ 4 →
        PerChainQueryRequest.deserialize_from_reader ⟨data, pos, al⟩ =
          (Except.error (Err.invalidData "UnsupportedQueryType"), ⟨data, pos + 7, al⟩)) ∧
    (∀ (data : Bytes) (pos : Nat) (al : List Nat) (t : Nat),
        pos + 7 ≤ data.length → data[pos + 2]? = some t →
        t ≠ 1 → t ≠ 2 → t ≠ 3 → t ≠ 4 →
        PerChainQueryResponse.deserialize_from_reader ⟨data, pos, al⟩ =
          (Except.error (Err.invalidData "UnsupportedResponseType"), ⟨data, pos + 7, al⟩)) ∧
    (∀ (data : Bytes) (n t : Nat),
        13 ≤ data.length → data[0]? = some 1 → data[5]? = some n → n ≠ 0 →
        data[8]? = some t → t ≠ 1 → t ≠ 2 → t ≠ 3 → t ≠ 4 →
        QueryRequest.deserialize data =
          Except.error (Err.invalidData "UnsupportedQueryType")) := by
  have hreq : ∀ (data : Bytes) (pos : Nat) (al : List Nat) (t : Nat),
      pos + 7 ≤ data.length → data[pos + 2]? = some t →
      t ≠ 1 → t ≠ 2 → t ≠ 3 → t ≠ 4 →
      PerChainQueryRequest.deserialize_from_reader ⟨data, pos, al⟩ =
        (Except.error (Err.invalidData "UnsupportedQueryType"), ⟨data, pos + 7, al⟩) := by
    intro data pos al t h7 ht ht1 ht2 ht3 ht4
    have e16 : read_u16 ⟨data, pos, al⟩ =
        (Except.ok (beNat ((data.drop pos).take 2)), ⟨data, pos + 2, al⟩) :=
      read_u16_ok (show pos + 2 ≤ data.length by omega)
    have e8 : read_u8 ⟨data, pos + 2, al⟩ = (Except.ok t, ⟨data, pos + 3, al⟩) :=
      read_u8_at ht
    have e32 : read_u32 ⟨data, pos + 3, al⟩ =
        (Except.ok (beNat ((data.drop (pos + 3)).take 4)), ⟨data, pos + 7, al⟩) :=
      read_u32_ok (show pos + 3 + 4 ≤ data.length by omega)
    simp only [PerChainQueryRequest.deserialize_from_reader, bind_app, e16, e8, e32]
    unfold PerChainQueryRequest.dispatch
    rw [if_neg ht1, if_neg ht2, if_neg ht3, if_neg ht4]
    rfl
  have hresp : ∀ (data : Bytes) (pos : Nat) (al : List Nat) (t : Nat),
      pos + 7 ≤ data.length → data[pos + 2]? = some t →
      t ≠ 1 → t ≠ 2 → t ≠ 3 → t ≠ 4 →
      PerChainQueryResponse.deserialize_from_reader ⟨data, pos, al⟩ =
        (Except.error (Err.invalidData "UnsupportedResponseType"), ⟨data, pos + 7, al⟩) := by
    intro data pos al t h7 ht ht1 ht2 ht3 ht4
    have e16 : read_u16 ⟨data, pos, al⟩ =
        (Except.ok (beNat ((data.drop pos).take 2)), ⟨data, pos + 2, al⟩) :=
      read_u16_ok (show pos + 2 ≤ data.length by omega)
    have e8 : read_u8 ⟨data, pos + 2, al⟩ = (Except.ok t, ⟨data, pos + 3, al⟩) :=
      read_u8_at ht
    have e32 : read_u32 ⟨data, pos + 3, al⟩ =
        (Except.ok (beNat ((data.drop (pos + 3)).take 4)), ⟨data, pos + 7, al⟩) :=
      read_u32_ok (show pos + 3 + 4 ≤ data.length by omega)
    simp only [PerChainQueryResponse.deserialize_from_reader, bind_app, e16, e8, e32]
    unfold PerChainQueryResponse.dispatch
    rw [if_neg ht1, if_neg ht2, if_neg ht3, if_neg ht4]
    rfl
  refine ⟨hreq, hresp, ?_⟩
  intro data n t hlen h0 h5 hn h8t ht1 ht2 ht3 ht4
  have e8 : read_u8 ⟨data, 0, []⟩ = (Except.ok 1, ⟨data, 1, []⟩) := read_u8_at h0
  have e32 : read_u32 ⟨data, 1, []⟩ =
      (Except.ok (beNat ((data.drop 1).take 4)), ⟨data, 5, []⟩) :=
    read_u32_ok (show 1 + 4 ≤ data.length by omega)
  have e8' : read_u8 ⟨data, 5, []⟩ = (Except.ok n, ⟨data, 6, []⟩) := read_u8_at h5
  obtain ⟨k, rfl⟩ : ∃ k, n = k + 1 := ⟨n - 1, by omega⟩
  have epc : PerChainQueryRequest.deserialize_from_reader ⟨data, 6, []⟩ =
      (Except.error (Err.invalidData "UnsupportedQueryType"), ⟨data, 13, []⟩) :=
    hreq data 6 [] t (by omega) h8t ht1 ht2 ht3 ht4
  show (QueryRequest.deserialize_from_reader ⟨data, 0, []⟩).1 = _
  simp only [QueryRequest.deserialize_from_reader, QueryRequest.REQUEST_VERSION, bind_app,
    e8, e32, e8', replicateM_succ, replicateM_zero, epc,
    if_neg (show ¬((1 : Nat) ≠ 1) by decide), if_neg (show ¬(k + 1 = 0) by omega)]

theorem C5_witness :
    (PerChainQueryRequest.deserialize_from_reader ⟨[0, 2, 9, 0, 0, 0, 0], 0, []⟩ =
      (Except.error (Err.invalidData "UnsupportedQueryType"),
        ⟨[0, 2, 9, 0, 0, 0, 0], 7, []⟩)) ∧
    (PerChainQueryResponse.deserialize_from_reader ⟨[0, 2, 9, 0, 0, 0, 0], 0, []⟩ =
      (Except.error (Err.invalidData "UnsupportedResponseType"),
        ⟨[0, 2, 9, 0, 0, 0, 0], 7, []⟩)) ∧
    QueryRequest.deserialize [1, 0, 0, 0, 1, 1, 0, 2, 9, 0, 0, 0, 0] =
      Except.error (Err.invalidData "UnsupportedQueryType") :=
  ⟨C5_unsupported_tag.1 [0, 2, 9, 0, 0, 0, 0] 0 [] 9 (by decide) rfl
      (by decide) (by decide) (by decide) (by decide),
   C5_unsupported_tag.2.1 [0, 2, 9, 0, 0, 0, 0] 0 [] 9 (by decide) rfl
      (by decide) (by decide) (by decide) (by decide),
   C5_unsupported_tag.2.2 [1, 0, 0, 0, 1, 1, 0, 2, 9, 0, 0, 0, 0] 1 9 (by decide) rfl rfl
      (by decide) rfl (by decide) (by decide) (by decide) (by decide)⟩

/-- C9: the three discarded 4-byte length fields do not influence decoding.
Replacing the 4 bytes of the length field that precedes a per-chain query
(at offset `pos + 3`, after the 2-byte chain id and 1-byte tag), the one
that precedes a per-chain response, or the one that precedes the embedded
request inside a response (at offset `3 + request_id_len`) with arbitrary
bytes yields the same decode result — and, for the per-chain parsers, the
same final cursor position. -/
theorem C9_discarded_length_fields :
    (∀ (data w : Bytes) (pos : Nat) (al : List Nat),
        w.length = 4 → pos + 7 ≤ data.length →
        (PerChainQueryRequest.deserialize_from_reader
            ⟨splice data (pos + 3) w, pos, al⟩).1 =
          (PerChainQueryRequest.deserialize_from_reader ⟨data, pos, al⟩).1 ∧
        (PerChainQueryRequest.deserialize_from_reader
            ⟨splice data (pos + 3) w, pos, al⟩).2.pos =
          (PerChainQueryRequest.deserialize_from_reader ⟨data, pos, al⟩).2.pos) ∧
    (∀ (data w : Bytes) (pos : Nat) (al : List Nat),
        w.length = 4 → pos + 7 ≤ data.length →
        (PerChainQueryResponse.deserialize_from_reader
            ⟨splice data (pos + 3) w, pos, al⟩).1 =
          (PerChainQueryResponse.deserialize_from_reader ⟨data, pos, al⟩).1 ∧
        (PerChainQueryResponse.deserialize_from_reader
            ⟨splice data (pos + 3) w, pos, al⟩).2.pos =
          (PerChainQueryResponse.deserialize_from_reader ⟨data, pos, al⟩).2.pos) ∧
    (∀ (data w : Bytes) (b1 b2 : Nat),
        w.length = 4 → data[0]? = some 1 → data[1]? = some b1 → data[2]? = some b2 →
        3 + (if b1 * 256 + b2 = 0 then 65 else 32) + 4 ≤ data.length →
        QueryResponse.deserialize
            (splice data (3 + (if b1 * 256 + b2 = 0 then 65 else 32)) w) =
          QueryResponse.deserialize data) := by
  refine ⟨?_, ?_, ?_⟩
  · intro data w pos al hw h7
    have hsl : (splice data (pos + 3) w).length = data.length := splice_length (by omega)
    have hlow : ∀ i, i < pos + 3 → (splice data (pos + 3) w)[i]? = data[i]? :=
      fun i hi => splice_getElem_low hi (by omega)
    have hhigh : ∀ i, pos + 7 ≤ i → (splice data (pos + 3) w)[i]? = data[i]? :=
      fun i hi => splice_getElem_high (by omega) (by omega)
    have e16 : read_u16 ⟨data, pos, al⟩ =
        (Except.ok (beNat ((data.drop pos).take 2)), ⟨data, pos + 2, al⟩) :=
      read_u16_ok (show pos + 2 ≤ data.length by omega)
    have e8 : read_u8 ⟨data, pos + 2, al⟩ =
        (Except.ok (beNat ((data.drop (pos + 2)).take 1)), ⟨data, pos + 3, al⟩) :=
      read_u8_ok (show pos + 2 + 1 ≤ data.length by omega)
    have e32 : read_u32 ⟨data, pos + 3, al⟩ =
        (Except.ok (beNat ((data.drop (pos + 3)).take 4)), ⟨data, pos + 7, al⟩) :=
      read_u32_ok (show pos + 3 + 4 ≤ data.length by omega)
    have hseg2 : ((splice data (pos + 3) w).drop pos).take 2 = (data.drop pos).take 2 :=
      seg_eq_of_eqOn (fun i hi1 hi2 => hlow i (by omega))
    have hseg1 : ((splice data (pos + 3) w).drop (pos + 2)).take 1 =
        (data.drop (pos + 2)).take 1 :=
      seg_eq_of_eqOn (fun i hi1 hi2 => hlow i (by omega))
    have e16s : read_u16 ⟨splice data (pos + 3) w, pos, al⟩ =
        (Except.ok (beNat ((data.drop pos).take 2)),
          ⟨splice data (pos + 3) w, pos + 2, al⟩) := by
      rw [show read_u16 ⟨splice data (pos + 3) w, pos, al⟩ =
          (Except.ok (beNat (((splice data (pos + 3) w).drop pos).take 2)),
            ⟨splice data (pos + 3) w, pos + 2, al⟩) from
        read_u16_ok (show pos + 2 ≤ (splice data (pos + 3) w).length by omega), hseg2]
    have e8s : read_u8 ⟨splice data (pos + 3) w, pos + 2, al⟩ =
        (Except.ok (beNat ((data.drop (pos + 2)).take 1)),
          ⟨splice data (pos + 3) w, pos + 3, al⟩) := by
      rw [show read_u8 ⟨splice data (pos + 3) w, pos + 2, al⟩ =
          (Except.ok (beNat (((splice data (pos + 3) w).drop (pos + 2)).take 1)),
            ⟨splice data (pos + 3) w, pos + 3, al⟩) from
        read_u8_ok (show pos + 2 + 1 ≤ (splice data (pos + 3) w).length by omega), hseg1]
    have e32s : read_u32 ⟨splice data (pos + 3) w, pos + 3, al⟩ =
        (Except.ok (beNat (((splice data (pos + 3) w).drop (pos + 3)).take 4)),
          ⟨splice data (pos + 3) w, pos + 7, al⟩) :=
      read_u32_ok (show pos + 3 + 4 ≤ (splice data (pos + 3) w).length by omega)
    have hrunD : PerChainQueryRequest.deserialize_from_reader ⟨data, pos, al⟩ =
        PerChainQueryRequest.dispatch (beNat ((data.drop pos).take 2))
          (beNat ((data.drop (pos + 2)).take 1)) ⟨data, pos + 7, al⟩ := by
      simp only [PerChainQueryRequest.deserialize_from_reader, bind_app, e16, e8, e32]
    have hrunS : PerChainQueryRequest.deserialize_from_reader
        ⟨splice data (pos + 3) w, pos, al⟩ =
        PerChainQueryRequest.dispatch (beNat ((data.drop pos).take 2))
          (beNat ((data.drop (pos + 2)).take 1))
          ⟨splice data (pos + 3) w, pos + 7, al⟩ := by
      simp only [PerChainQueryRequest.deserialize_from_reader, bind_app, e16s, e8s, e32s]
    obtain ⟨l1, l2, _⟩ := (wb_PerChainQueryRequest_dispatch (beNat ((data.drop pos).take 2))
        (beNat ((data.drop (pos + 2)).take 1))).loc ⟨data, pos + 7, al⟩
      (splice data (pos + 3) w) (show pos + 7 ≤ data.length from h7) hsl.symm
      (fun i hi => (hhigh i hi).symm)
    exact ⟨by rw [hrunD, hrunS]; exact l1, by rw [hrunD, hrunS]; exact l2⟩
  · intro data w pos al hw h7
    have hsl : (splice data (pos + 3) w).length = data.length := splice_length (by omega)
    have hlow : ∀ i, i < pos + 3 → (splice data (pos + 3) w)[i]? = data[i]? :=
      fun i hi => splice_getElem_low hi (by omega)
    have hhigh : ∀ i, pos + 7 ≤ i → (splice data (pos + 3) w)[i]? = data[i]? :=
      fun i hi => splice_getElem_high (by omega) (by omega)
    have e16 : read_u16 ⟨data, pos, al⟩ =
        (Except.ok (beNat ((data.drop pos).take 2)), ⟨data, pos + 2, al⟩) :=
      read_u16_ok (show pos + 2 ≤ data.length by omega)
    have e8 : read_u8 ⟨data, pos + 2, al⟩ =
        (Except.ok (beNat ((data.drop (pos + 2)).take 1)), ⟨data, pos + 3, al⟩) :=
      read_u8_ok (show pos + 2 + 1 ≤ data.length by omega)
    have e32 : read_u32 ⟨data, pos + 3, al⟩ =
        (Except.ok (beNat ((data.drop (pos + 3)).take 4)), ⟨data, pos + 7, al⟩) :=
      read_u32_ok (show pos + 3 + 4 ≤ data.length by omega)
    have hseg2 : ((splice data (pos + 3) w).drop pos).take 2 = (data.drop pos).take 2 :=
      seg_eq_of_eqOn (fun i hi1 hi2 => hlow i (by omega))
    have hseg1 : ((splice data (pos + 3) w).drop (pos + 2)).take 1 =
        (data.drop (pos + 2)).take 1 :=
      seg_eq_of_eqOn (fun i hi1 hi2 => hlow i (by omega))
    have e16s : read_u16 ⟨splice data (pos + 3) w, pos, al⟩ =
        (Except.ok (beNat ((data.drop pos).take 2)),
          ⟨splice data (pos + 3) w, pos + 2, al⟩) := by
      rw [show read_u16 ⟨splice data (pos + 3) w, pos, al⟩ =
          (Except.ok (beNat (((splice data (pos + 3) w).drop pos).take 2)),
            ⟨splice data (pos + 3) w, pos + 2, al⟩) from
        read_u16_ok (show pos + 2 ≤ (splice data (pos + 3) w).length by omega), hseg2]
    have e8s : read_u8 ⟨splice data (pos + 3) w, pos + 2, al⟩ =
        (Except.ok (beNat ((data.drop (pos + 2)).take 1)),
          ⟨splice data (pos + 3) w, pos + 3, al⟩) := by
      rw [show read_u8 ⟨splice data (pos + 3) w, pos + 2, al⟩ =
          (Except.ok (beNat (((splice data (pos + 3) w).drop (pos + 2)).take 1)),
            ⟨splice data (pos + 3) w, pos + 3, al⟩) from
        read_u8_ok (show pos + 2 + 1 ≤ (splice data (pos + 3) w).length by omega), hseg1]
    have e32s : read_u32 ⟨splice data (pos + 3) w, pos + 3, al⟩ =
        (Except.ok (beNat (((splice data (pos + 3) w).drop (pos + 3)).take 4)),
          ⟨splice data (pos + 3) w, pos + 7, al⟩) :=
      read_u32_ok (show pos + 3 + 4 ≤ (splice data (pos + 3) w).length by omega)
    have hrunD : PerChainQueryResponse.deserialize_from_reader ⟨data, pos, al⟩ =
        PerChainQueryResponse.dispatch (beNat ((data.drop pos).take 2))
          (beNat ((data.drop (pos + 2)).take 1)) ⟨data, pos + 7, al⟩ := by
      simp only [PerChainQueryResponse.deserialize_from_reader, bind_app, e16, e8, e32]
    have hrunS : PerChainQueryResponse.deserialize_from_reader
        ⟨splice data (pos + 3) w, pos, al⟩ =
        PerChainQueryResponse.dispatch (beNat ((data.drop pos).take 2))
          (beNat ((data.drop (pos + 2)).take 1))
          ⟨splice data (pos + 3) w, pos + 7, al⟩ := by
      simp only [PerChainQueryResponse.deserialize_from_reader, bind_app, e16s, e8s, e32s]
    obtain ⟨l1, l2, _⟩ := (wb_PerChainQueryResponse_dispatch (beNat ((data.drop pos).take 2))
        (beNat ((data.drop (pos + 2)).take 1))).loc ⟨data, pos + 7, al⟩
      (splice data (pos + 3) w) (show pos + 7 ≤ data.length from h7) hsl.symm
      (fun i hi => (hhigh i hi).symm)
    exact ⟨by rw [hrunD, hrunS]; exact l1, by rw [hrunD, hrunS]; exact l2⟩
  · intro data w b1 b2 hw h0 h1 h2 hlen
    have hID : 32 ≤ (if b1 * 256 + b2 = 0 then 65 else 32) ∧
        (if b1 * 256 + b2 = 0 then 65 else 32) ≤ 65 := by
      by_cases hb : b1 * 256 + b2 = 0
      · rw [if_pos hb]; omega
      · rw [if_neg hb]; omega
    obtain ⟨hID1, hID2⟩ := hID
    have hsl : (splice data (3 + (if b1 * 256 + b2 = 0 then 65 else 32)) w).length =
        data.length := splice_length (by omega)
    have hlow : ∀ i, i < 3 + (if b1 * 256 + b2 = 0 then 65 else 32) →
        (splice data (3 + (if b1 * 256 + b2 = 0 then 65 else 32)) w)[i]? = data[i]? :=
      fun i hi => splice_getElem_low hi (by omega)
    have hhigh : ∀ i, 3 + (if b1 * 256 + b2 = 0 then 65 else 32) + 4 ≤ i →
        (splice data (3 + (if b1 * 256 + b2 = 0 then 65 else 32)) w)[i]? = data[i]? :=
      fun i hi => splice_getElem_high (by omega) (by omega)
    have e8 : read_u8 ⟨data, 0, []⟩ = (Except.ok 1, ⟨data, 1, []⟩) := read_u8_at h0
    have e8s : read_u8 ⟨splice data (3 + (if b1 * 256 + b2 = 0 then 65 else 32)) w, 0, []⟩ =
        (Except.ok 1,
          ⟨splice data (3 + (if b1 * 256 + b2 = 0 then 65 else 32)) w, 1, []⟩) :=
      read_u8_at (show (splice data (3 + (if b1 * 256 + b2 = 0 then 65 else 32)) w)[0]? =
        some 1 from by rw [hlow 0 (by omega)]; exact h0)
    have e16 : read_u16 ⟨data, 1, []⟩ = (Except.ok (b1 * 256 + b2), ⟨data, 3, []⟩) :=
      read_u16_at h1 h2
    have e16s : read_u16
        ⟨splice data (3 + (if b1 * 256 + b2 = 0 then 65 else 32)) w, 1, []⟩ =
        (Except.ok (b1 * 256 + b2),
          ⟨splice data (3 + (if b1 * 256 + b2 = 0 then 65 else 32)) w, 3, []⟩) :=
      read_u16_at
        (show (splice data (3 + (if b1 * 256 + b2 = 0 then 65 else 32)) w)[1]? =
          some b1 from by rw [hlow 1 (by omega)]; exact h1)
        (show (splice data (3 + (if b1 * 256 + b2 = 0 then 65 else 32)) w)[2]? =
          some b2 from by rw [hlow 2 (by omega)]; exact h2)
    have eex : read_exact (if b1 * 256 + b2 = 0 then 65 else 32)
        ⟨data, 3, [if b1 * 256 + b2 = 0 then 65 else 32]⟩ =
        (Except.ok ((data.drop 3).take (if b1 * 256 + b2 = 0 then 65 else 32)),
          ⟨data, 3 + (if b1 * 256 + b2 = 0 then 65 else 32),
            [if b1 * 256 + b2 = 0 then 65 else 32]⟩) :=
      read_exact_ok (show (if b1 * 256 + b2 = 0 then 65 else 32) ≤ data.length - 3 by omega)
    have hsegID : ((splice data (3 + (if b1 * 256 + b2 = 0 then 65 else 32)) w).drop 3).take
        (if b1 * 256 + b2 = 0 then 65 else 32) =
        (data.drop 3).take (if b1 * 256 + b2 = 0 then 65 else 32) :=
      seg_eq_of_eqOn (fun i hi1 hi2 => hlow i (by omega))
    have eexs : read_exact (if b1 * 256 + b2 = 0 then 65 else 32)
        ⟨splice data (3 + (if b1 * 256 + b2 = 0 then 65 else 32)) w, 3,
          [if b1 * 256 + b2 = 0 then 65 else 32]⟩ =
        (Except.ok ((data.drop 3).take (if b1 * 256 + b2 = 0 then 65 else 32)),
          ⟨splice data (3 + (if b1 * 256 + b2 = 0 then 65 else 32)) w,
            3 + (if b1 * 256 + b2 = 0 then 65 else 32),
            [if b1 * 256 + b2 = 0 then 65 else 32]⟩) := by
      rw [show read_exact (if b1 * 256 + b2 = 0 then 65 else 32)
          ⟨splice data (3 + (if b1 * 256 + b2 = 0 then 65 else 32)) w, 3,
            [if b1 * 256 + b2 = 0 then 65 else 32]⟩ =
          (Except.ok (((splice data (3 + (if b1 * 256 + b2 = 0 then 65 else 32)) w).drop
              3).take (if b1 * 256 + b2 = 0 then 65 else 32)),
            ⟨splice data (3 + (if b1 * 256 + b2 = 0 then 65 else 32)) w,
              3 + (if b1 * 256 + b2 = 0 then 65 else 32),
              [if b1 * 256 + b2 = 0 then 65 else 32]⟩) from
        read_exact_ok (show (if b1 * 256 + b2 = 0 then 65 else 32) ≤
          (splice data (3 + (if b1 * 256 + b2 = 0 then 65 else 32)) w).length - 3
          by omega), hsegID]
    have e32 : read_u32 ⟨data, 3 + (if b1 * 256 + b2 = 0 then 65 else 32),
        [if b1 * 256 + b2 = 0 then 65 else 32]⟩ =
        (Except.ok (beNat ((data.drop (3 + (if b1 * 256 + b2 = 0 then 65 else 32))).take 4)),
          ⟨data, 3 + (if b1 * 256 + b2 = 0 then 65 else 32) + 4,
            [if b1 * 256 + b2 = 0 then 65 else 32]⟩) :=
      read_u32_ok (show 3 + (if b1 * 256 + b2 = 0 then 65 else 32) + 4 ≤ data.length
        from hlen)
    have e32s : read_u32 ⟨splice data (3 + (if b1 * 256 + b2 = 0 then 65 else 32)) w,
        3 + (if b1 * 256 + b2 = 0 then 65 else 32),
        [if b1 * 256 + b2 = 0 then 65 else 32]⟩ =
        (Except.ok (beNat (((splice data (3 + (if b1 * 256 + b2 = 0 then 65 else 32))
            w).drop (3 + (if b1 * 256 + b2 = 0 then 65 else 32))).take 4)),
          ⟨splice data (3 + (if b1 * 256 + b2 = 0 then 65 else 32)) w,
            3 + (if b1 * 256 + b2 = 0 then 65 else 32) + 4,
            [if b1 * 256 + b2 = 0 then 65 else 32]⟩) :=
      read_u32_ok (show 3 + (if b1 * 256 + b2 = 0 then 65 else 32) + 4 ≤
        (splice data (3 + (if b1 * 256 + b2 = 0 then 65 else 32)) w).length by omega)
    have hbodyD : QueryResponse.deserialize_body ⟨data, 0, []⟩ =
        QueryResponse.read_tail 1 (b1 * 256 + b2)
          ((data.drop 3).take (if b1 * 256 + b2 = 0 then 65 else 32))
          ⟨data, 3 + (if b1 * 256 + b2 = 0 then 65 else 32) + 4,
            [if b1 * 256 + b2 = 0 then 65 else 32]⟩ := by
      simp only [QueryResponse.deserialize_body, QueryResponse.RESPONSE_VERSION, bind_app,
        e8, e16, alloc_app, List.nil_append, eex, e32,
        if_neg (show ¬((1 : Nat) ≠ 1) by decide)]
    have hbodyS : QueryResponse.deserialize_body
        ⟨splice data (3 + (if b1 * 256 + b2 = 0 then 65 else 32)) w, 0, []⟩ =
        QueryResponse.read_tail 1 (b1 * 256 + b2)
          ((data.drop 3).take (if b1 * 256 + b2 = 0 then 65 else 32))
          ⟨splice data (3 + (if b1 * 256 + b2 = 0 then 65 else 32)) w,
            3 + (if b1 * 256 + b2 = 0 then 65 else 32) + 4,
            [if b1 * 256 + b2 = 0 then 65 else 32]⟩ := by
      simp only [QueryResponse.deserialize_body, QueryResponse.RESPONSE_VERSION, bind_app,
        e8s, e16s, alloc_app, List.nil_append, eexs, e32s,
        if_neg (show ¬((1 : Nat) ≠ 1) by decide)]
    obtain ⟨l1, l2, _⟩ := (wb_QueryResponse_read_tail 1 (b1 * 256 + b2)
        ((data.drop 3).take (if b1 * 256 + b2 = 0 then 65 else 32))).loc
      ⟨data, 3 + (if b1 * 256 + b2 = 0 then 65 else 32) + 4,
        [if b1 * 256 + b2 = 0 then 65 else 32]⟩
      (splice data (3 + (if b1 * 256 + b2 = 0 then 65 else 32)) w)
      (show 3 + (if b1 * 256 + b2 = 0 then 65 else 32) + 4 ≤ data.length from hlen)
      hsl.symm (fun i hi => (hhigh i hi).symm)
    show (QueryResponse.deserialize_from_reader
        ⟨splice data (3 + (if b1 * 256 + b2 = 0 then 65 else 32)) w, 0, []⟩).1 =
      (QueryResponse.deserialize_from_reader ⟨data, 0, []⟩).1
    unfold QueryResponse.deserialize_from_reader
    simp only [bind_app]
    rw [hbodyD, hbodyS]
    rcases hT : QueryResponse.read_tail 1 (b1 * 256 + b2)
        ((data.drop 3).take (if b1 * 256 + b2 = 0 then 65 else 32))
        ⟨data, 3 + (if b1 * 256 + b2 = 0 then 65 else 32) + 4,
          [if b1 * 256 + b2 = 0 then 65 else 32]⟩ with ⟨rT, cT⟩
    rcases hTs : QueryResponse.read_tail 1 (b1 * 256 + b2)
        ((data.drop 3).take (if b1 * 256 + b2 = 0 then 65 else 32))
        ⟨splice data (3 + (if b1 * 256 + b2 = 0 then 65 else 32)) w,
          3 + (if b1 * 256 + b2 = 0 then 65 else 32) + 4,
          [if b1 * 256 + b2 = 0 then 65 else 32]⟩ with ⟨rTs, cTs⟩
    rw [hT, hTs] at l1 l2
    have l1' : rTs = rT := l1
    have l2' : cTs.pos = cT.pos := l2
    rw [l1']
    obtain ⟨hdT, _, _⟩ := (wb_QueryResponse_read_tail 1 (b1 * 256 + b2)
        ((data.drop 3).take (if b1 * 256 + b2 = 0 then 65 else 32))).frame
      ⟨data, 3 + (if b1 * 256 + b2 = 0 then 65 else 32) + 4,
        [if b1 * 256 + b2 = 0 then 65 else 32]⟩
      (show 3 + (if b1 * 256 + b2 = 0 then 65 else 32) + 4 ≤ data.length from hlen)
    rw [hT] at hdT
    have hdT' : cT.data = data := hdT
    obtain ⟨hdS, _, _⟩ := (wb_QueryResponse_read_tail 1 (b1 * 256 + b2)
        ((data.drop 3).take (if b1 * 256 + b2 = 0 then 65 else 32))).frame
      ⟨splice data (3 + (if b1 * 256 + b2 = 0 then 65 else 32)) w,
        3 + (if b1 * 256 + b2 = 0 then 65 else 32) + 4,
        [if b1 * 256 + b2 = 0 then 65 else 32]⟩
      (show 3 + (if b1 * 256 + b2 = 0 then 65 else 32) + 4 ≤
        (splice data (3 + (if b1 * 256 + b2 = 0 then 65 else 32)) w).length by omega)
    rw [hTs] at hdS
    have hdS' : cTs.data =
        splice data (3 + (if b1 * 256 + b2 = 0 then 65 else 32)) w := hdS
    cases rT with
    | error e => rfl
    | ok rv =>
      simp only [bind_app, get_position_app, get_len_app]
      by_cases hc : cT.pos = data.length
      · rw [if_neg (show ¬cTs.pos ≠ cTs.data.length from fun hne => hne
            (by rw [l2', hdS', hsl]; exact hc)),
          if_neg (show ¬cT.pos ≠ cT.data.length from fun hne => hne
            (by rw [hdT']; exact hc))]
        rfl
      · rw [if_pos (show cTs.pos ≠ cTs.data.length from fun heq => hc
            (by rw [l2', hdS', hsl] at heq; exact heq)),
          if_pos (show cT.pos ≠ cT.data.length from fun heq => hc
            (by rw [hdT'] at heq; exact heq))]
        rfl

theorem C9_witness :
    ((PerChainQueryRequest.deserialize_from_reader
        ⟨splice [0, 2, 9, 0, 0, 0, 0] 3 [1, 2, 3, 4], 0, []⟩).1 =
      (PerChainQueryRequest.deserialize_from_reader ⟨[0, 2, 9, 0, 0, 0, 0], 0, []⟩).1 ∧
     (PerChainQueryRequest.deserialize_from_reader
        ⟨splice [0, 2, 9, 0, 0, 0, 0] 3 [1, 2, 3, 4], 0, []⟩).2.pos =
      (PerChainQueryRequest.deserialize_from_reader ⟨[0, 2, 9, 0, 0, 0, 0], 0, []⟩).2.pos) ∧
    ((PerChainQueryResponse.deserialize_from_reader
        ⟨splice [0, 2, 9, 0, 0, 0, 0] 3 [1, 2, 3, 4], 0, []⟩).1 =
      (PerChainQueryResponse.deserialize_from_reader ⟨[0, 2, 9, 0, 0, 0, 0], 0, []⟩).1 ∧
     (PerChainQueryResponse.deserialize_from_reader
        ⟨splice [0, 2, 9, 0, 0, 0, 0] 3 [1, 2, 3, 4], 0, []⟩).2.pos =
      (PerChainQueryResponse.deserialize_from_reader ⟨[0, 2, 9, 0, 0, 0, 0], 0, []⟩).2.pos) ∧
    QueryResponse.deserialize (splice respBuf (3 + (if 0 * 256 + 5 = 0 then 65 else 32))
        [9, 9, 9, 9]) = QueryResponse.deserialize respBuf :=
  ⟨C9_discarded_length_fields.1 [0, 2, 9, 0, 0, 0, 0] [1, 2, 3, 4] 0 [] (by decide)
      (by decide),
   C9_discarded_length_fields.2.1 [0, 2, 9, 0, 0, 0, 0] [1, 2, 3, 4] 0 [] (by decide)
      (by decide),
   C9_discarded_length_fields.2.2 respBuf [9, 9, 9, 9] 0 5 (by decide) rfl rfl rfl
      (by decide)⟩

end WormholeQuery
